import Mathlib

/-!
Verification of the hotel-booking agent's turn-orchestration core.

This file gives a shallow embedding, in Lean 4, of the components of the
agent service that the specification's testable properties concern:

* `services/agent/app/grounding.py` — the grounding validator,
* `services/agent/app/graph.py` and `graph_helpers.py` — the constraint
  fingerprint, the resolver pipeline, and the decision / tool-call /
  respond state machine,
* `services/agent/app/tool_client.py` — the bounded-retry tool client,
* `services/agent/app/main.py` — the per-turn `/chat` handler's error
  handling.

Python dictionaries are embedded as association lists or as typed records
(matching the Pydantic schemas in `llm_schemas.py`); floats carrying money
are embedded as exact cent counts (`Nat`), other numeric fields as `Nat`
or `Rat`; datetimes are embedded as their ISO serializations or as
year/month/day records.  External collaborators (the LLM and the three
query tools) are embedded as oracles supplied to the step functions.
-/

namespace HotelAgent

/-! ## Grounding validator (`grounding.py`)

The Python module scans assistant text with two regexes,

* `_MONEY_RE   = (?<!\w)\$([0-9]\x7b1,3\x7d(?:,[0-9]\x7b3\x7d)*(?:\.[0-9]\x7b2\x7d)?)`
* `_ISO_TS_RE  = \b(\d\x7b4\x7d-\d\x7b2\x7d-\d\x7b2\x7dT\d\x7b2\x7d:\d\x7b2\x7d:\d\x7b2\x7d(?:\.\d+)?(?:Z|[+-]\d\x7b2\x7d:\d\x7b2\x7d))\b`

and raises `GroundingViolation` for the first token not in the respective
allow-set.  We embed the scanners as character-list functions with the
same leftmost, non-overlapping, greedy semantics. -/

/-- Word character, modelling the regex class `\w` (ASCII range). -/
def isWordChar (c : Char) : Bool := c.isAlphanum || c == '_'

/-- Greedily take up to `n` leading characters satisfying `p`. -/
def takeUpTo (n : Nat) (p : Char → Bool) : List Char → (List Char × List Char)
  | [] => ([], [])
  | c :: rest =>
    match n with
    | 0 => ([], c :: rest)
    | m + 1 =>
      if p c then
        let (t, r) := takeUpTo m p rest
        (c :: t, r)
      else ([], c :: rest)

/-- Greedily consume `(?:,[0-9]\x7b3\x7d)*`: comma groups of exactly three digits. -/
def commaGroups : List Char → (List Char × List Char)
  | ',' :: a :: b :: c :: rest =>
    if a.isDigit && b.isDigit && c.isDigit then
      let (t, r) := commaGroups rest
      (',' :: a :: b :: c :: t, r)
    else ([], ',' :: a :: b :: c :: rest)
  | l => ([], l)

/-- Consume the optional `(?:\.[0-9]\x7b2\x7d)?`: a dot followed by exactly two digits. -/
def decimalPart : List Char → (List Char × List Char)
  | '.' :: a :: b :: rest =>
    if a.isDigit && b.isDigit then (['.', a, b], rest)
    else ([], '.' :: a :: b :: rest)
  | l => ([], l)

/-- Match the money group after a `$`: `[0-9]\x7b1,3\x7d(?:,[0-9]\x7b3\x7d)*(?:\.[0-9]\x7b2\x7d)?`.
Returns the captured group (without the `$`) and the rest of the input.
The greedy first-choice always succeeds when at least one digit follows,
since the later parts can match the empty string, so no backtracking into
the quantifiers is ever needed. -/
def moneyAfterDollar (l : List Char) : Option (List Char × List Char) :=
  let (d1, r1) := takeUpTo 3 Char.isDigit l
  if d1.isEmpty then none
  else
    let (g, r2) := commaGroups r1
    let (f, r3) := decimalPart r2
    some (d1 ++ g ++ f, r3)

/-- Does the previous character block the `(?<!\w)` lookbehind? -/
def prevIsWord : Option Char → Bool
  | some c => isWordChar c
  | none => false

/-- Leftmost non-overlapping scan for money tokens, as `finditer` does:
try a match at each position, resume after the end of each match.  `fuel`
is an upper bound on the number of scan steps (each consumes at least one
character). -/
def moneyScanAux : Nat → Option Char → List Char → List String
  | 0, _, _ => []
  | _ + 1, _, [] => []
  | fuel + 1, prev, c :: rest =>
    if c == '$' && !(prevIsWord prev) then
      match moneyAfterDollar rest with
      | some (tok, r) => tok.asString :: moneyScanAux fuel (some (tok.getLastD '$')) r
      | none => moneyScanAux fuel (some c) rest
    else moneyScanAux fuel (some c) rest

/-- All money tokens (captured groups of `_MONEY_RE`) of a text, in order. -/
def moneyTokens (s : String) : List String :=
  moneyScanAux s.toList.length none s.toList

/-- Take exactly `n` leading digits, or fail. -/
def takeDigitsN : Nat → List Char → Option (List Char × List Char)
  | 0, l => some ([], l)
  | _ + 1, [] => none
  | n + 1, c :: rest =>
    if c.isDigit then (takeDigitsN n rest).map (fun tr => (c :: tr.1, tr.2))
    else none

/-- Expect a specific character. -/
def expectChar (c : Char) : List Char → Option (List Char)
  | x :: r => if x == c then some r else none
  | [] => none

/-- Match the fixed date-time core `\d\x7b4\x7d-\d\x7b2\x7d-\d\x7b2\x7dT\d\x7b2\x7d:\d\x7b2\x7d:\d\x7b2\x7d`. -/
def tsCore (l : List Char) : Option (List Char × List Char) := do
  let (y, r1) ← takeDigitsN 4 l
  let r2 ← expectChar '-' r1
  let (mo, r3) ← takeDigitsN 2 r2
  let r4 ← expectChar '-' r3
  let (d, r5) ← takeDigitsN 2 r4
  let r6 ← expectChar 'T' r5
  let (h, r7) ← takeDigitsN 2 r6
  let r8 ← expectChar ':' r7
  let (mi, r9) ← takeDigitsN 2 r8
  let r10 ← expectChar ':' r9
  let (se, r11) ← takeDigitsN 2 r10
  some (y ++ '-' :: mo ++ '-' :: d ++ 'T' :: h ++ ':' :: mi ++ ':' :: se, r11)

/-- Match the timezone alternative `(?:Z|[+-]\d\x7b2\x7d:\d\x7b2\x7d)`. -/
def tsZone : List Char → Option (List Char × List Char)
  | 'Z' :: r => some (['Z'], r)
  | c :: rest =>
    if c == '+' || c == '-' then do
      let (hh, r1) ← takeDigitsN 2 rest
      let r2 ← expectChar ':' r1
      let (mm, r3) ← takeDigitsN 2 r2
      some (c :: hh ++ ':' :: mm, r3)
    else none
  | [] => none

/-- Match `(?:\.\d+)?(?:Z|[+-]\d\x7b2\x7d:\d\x7b2\x7d)`.  The greedy fraction is
uniquely determined: a shorter-than-maximal fraction leaves a digit where
`Z` or a sign is required, so regex backtracking can never produce one. -/
def tsTail (l : List Char) : Option (List Char × List Char) :=
  match l with
  | '.' :: rest =>
    let ds := rest.takeWhile Char.isDigit
    if ds.isEmpty then none
    else
      match tsZone (rest.drop ds.length) with
      | some (t, r) => some ('.' :: ds ++ t, r)
      | none => none
  | _ => tsZone l

/-- Full timestamp match at a position, including the trailing `\b` (the
match ends in a word character — a digit or `Z` — so the boundary holds
exactly when the next character is absent or not a word character). -/
def tsMatch (l : List Char) : Option (List Char × List Char) := do
  let (core, r0) ← tsCore l
  let (t, r1) ← tsTail r0
  match r1 with
  | c :: _ => if isWordChar c then none else some (core ++ t, r1)
  | [] => some (core ++ t, [])

/-- Leftmost non-overlapping scan for ISO-timestamp tokens.  The leading
`\b` holds exactly when the previous character is absent or not a word
character, since the first matched character is a digit. -/
def tsScanAux : Nat → Option Char → List Char → List String
  | 0, _, _ => []
  | _ + 1, _, [] => []
  | fuel + 1, prev, c :: rest =>
    if !(prevIsWord prev) then
      match tsMatch (c :: rest) with
      | some (tok, r) => tok.asString :: tsScanAux fuel (some (tok.getLastD 'Z')) r
      | none => tsScanAux fuel (some c) rest
    else tsScanAux fuel (some c) rest

/-- All ISO-timestamp tokens of a text, in order. -/
def tsTokens (s : String) : List String :=
  tsScanAux s.toList.length none s.toList

/-- Two-digit zero padding. -/
def pad2N (n : Nat) : String := if n < 10 then "0" ++ toString n else toString n

/-- Format an exact cent count the way Python formats a price with
`f"..:.2f"`: integer part, dot, two decimal digits. -/
def fmtCents (c : Nat) : String := toString (c / 100) ++ "." ++ pad2N (c % 100)

/-- Remove all thousands separators, modelling `v.replace(",", "")`. -/
def stripCommas (s : String) : String :=
  (s.toList.filter (fun c => c != ',')).asString

/-- Suffix test on characters, modelling `str.endswith`. -/
def strEndsWith (s suffix : String) : Bool :=
  suffix.toList.isSuffixOf s.toList

/-- Drop the last `n` characters, modelling the slice `s[:-n]`. -/
def strDropRight (s : String) (n : Nat) : String :=
  (s.toList.take (s.toList.length - n)).asString

/-- The allowed-timestamp string set: every `datetime.isoformat()` string,
and for UTC strings ending in `+00:00` also the equivalent `Z` form, as
built by `validate_grounded_response`. -/
def expandTs (ts : List String) : List String :=
  ts.flatMap (fun s => if strEndsWith s "+00:00" then [s, strDropRight s 6 ++ "Z"] else [s])

/-- Result of the validator: `ok`, or the first violation raised. -/
inductive GroundingResult where
  | ok
  | violation (msg : String)
deriving DecidableEq, Repr

/-- Embedding of `validate_grounded_response(assistant_text, allowed_prices,
allowed_timestamps)`.  Allowed prices are exact cent counts (the Python
code formats each float with two decimals); allowed timestamps are the
`isoformat()` serializations of the allowed datetimes.  The first
unsanctioned money token raises, then the first unsanctioned timestamp
token. -/
def validate_grounded_response (text : String) (allowedPriceCents : List Nat)
    (allowedTimestamps : List String) : GroundingResult :=
  let allowedPriceSet := allowedPriceCents.map fmtCents
  match (moneyTokens text).find? (fun tok => !(allowedPriceSet.contains (stripCommas tok))) with
  | some tok => .violation ("ungrounded price $" ++ tok)
  | none =>
    let allowedTsSet := expandTs allowedTimestamps
    match (tsTokens text).find? (fun tok => !(allowedTsSet.contains tok)) with
    | some tok => .violation ("ungrounded timestamp " ++ tok)
    | none => .ok

/-! ## Constraint fingerprint (`graph.py::_tool_constraints_key`,
`graph_helpers.py::tool_constraint_subset`)

The fingerprint is `json.dumps(subset, sort_keys=True, default=str)` of
the tool-relevant constraint subset, after converting `date` values of
`check_in`/`check_out` to ISO strings and sorting a stringified
`amenities` list.  We embed the constraint dictionary as an association
list over a JSON-like value universe. -/

/-- Lexicographic code-point comparison of character lists, the order
Python `sorted` and `json.dumps(sort_keys=True)` use on strings. -/
def charListLe : List Char → List Char → Bool
  | [], _ => true
  | _ :: _, [] => false
  | a :: as, b :: bs =>
    if a.toNat < b.toNat then true
    else if b.toNat < a.toNat then false
    else charListLe as bs

/-- Code-point lexicographic order on strings. -/
def strLe (a b : String) : Prop := charListLe a.toList b.toList = true

instance : DecidableRel strLe := fun a b => by unfold strLe; infer_instance

/-- Python `str.isspace` characters relevant to `strip()`. -/
def pyIsSpace (c : Char) : Bool :=
  c == ' ' || c == '\t' || c == '\n' || c == '\r' || c == '\x0b' || c == '\x0c'

/-- Embedding of `str.strip()`. -/
def pyStrip (s : String) : String :=
  (((s.toList.dropWhile pyIsSpace).reverse.dropWhile pyIsSpace).reverse).asString

/-- Embedding of `str.rstrip()`. -/
def pyRstrip (s : String) : String :=
  ((s.toList.reverse.dropWhile pyIsSpace).reverse).asString

/-- Embedding of `str.lower()` (ASCII case folding). -/
def lowerStr (s : String) : String := (s.toList.map Char.toLower).asString

/-- Values a constraint dictionary can hold: strings, ints, floats
(embedded exactly as rationals), booleans, dates, and string lists
(amenities). -/
inductive CVal where
  | s (v : String)
  | i (v : Int)
  | f (v : Rat)
  | b (v : Bool)
  | date (y m d : Nat)
  | strList (vs : List String)
deriving DecidableEq, Repr

/-- Four-digit zero padding (ISO year). -/
def pad4N (n : Nat) : String :=
  if n < 10 then "000" ++ toString n
  else if n < 100 then "00" ++ toString n
  else if n < 1000 then "0" ++ toString n
  else toString n

/-- ISO serialization of a date, modelling `date.isoformat()`. -/
def isoDate (y m d : Nat) : String := pad4N y ++ "-" ++ pad2N m ++ "-" ++ pad2N d

/-- Stringification of a value, modelling Python `str()` (floats stand in
as exact rationals rendered by `toString`). -/
def pyStr : CVal → String
  | .s v => v
  | .i v => toString v
  | .f v => toString v
  | .b v => if v then "True" else "False"
  | .date y m d => isoDate y m d
  | .strList vs => toString vs

/-- JSON string quoting (escaping elided: the model only needs the
serialization to be deterministic and injective enough for equality). -/
def quoteStr (v : String) : String := "\"" ++ v ++ "\""

/-- JSON serialization of a value, modelling `json.dumps(..., default=str)`. -/
def dumpVal : CVal → String
  | .s v => quoteStr v
  | .i v => toString v
  | .f v => toString v
  | .b v => if v then "true" else "false"
  | .date y m d => quoteStr (isoDate y m d)
  | .strList vs => "[" ++ String.intercalate ", " (vs.map quoteStr) ++ "]"

/-- A Python dict embedded as an association list (keys unique in any
dict that Python can produce). -/
abbrev CDict : Type := List (String × CVal)

/-- Dictionary lookup, modelling `d.get(k)` / `d[k]`. -/
def getVal (d : CDict) (k : String) : Option CVal :=
  (d.find? (fun kv => kv.1 == k)).map Prod.snd

/-- The tool-relevant key allowlist of `tool_constraint_subset`. -/
def allowKeys : List String :=
  ["city", "check_in", "check_out", "adults", "children", "rooms",
   "max_price", "min_star", "amenities", "refundable_preferred", "currency"]

/-- Embedding of `tool_constraint_subset`: keep only allowlisted keys. -/
def tool_constraint_subset (d : CDict) : CDict :=
  d.filter (fun kv => allowKeys.contains kv.1)

/-- The per-entry canonicalization `_tool_constraints_key` applies before
serializing: `check_in`/`check_out` date values become ISO strings, and an
`amenities` list is stringified and sorted. -/
def canonEntry (k : String) (v : CVal) : CVal :=
  if k == "check_in" || k == "check_out" then
    match v with
    | .date y m d => .s (isoDate y m d)
    | w => w
  else if k == "amenities" then
    match v with
    | .strList vs => .strList (List.insertionSort strLe vs)
    | w => w
  else v

/-- The canonicalized tool-relevant subset. -/
def canonSubset (d : CDict) : CDict :=
  (tool_constraint_subset d).map (fun kv => (kv.1, canonEntry kv.1 kv.2))

/-- Serialization with stable key ordering, modelling
`json.dumps(d, sort_keys=True, default=str)`. -/
def dumpDict (d : CDict) : String :=
  let ks := List.insertionSort strLe (d.map Prod.fst)
  "\x7b" ++
    String.intercalate ", "
      (ks.map (fun k => quoteStr k ++ ": " ++ dumpVal ((getVal d k).getD (.s "")))) ++
    "\x7d"

/-- Embedding of `_tool_constraints_key(constraints)`. -/
def tool_constraints_key (d : CDict) : String := dumpDict (canonSubset d)

/-! ## Constraint model and graph helpers (`constraints.py`,
`graph_helpers.py`, `llm_schemas.py`)

Constraint dictionaries that flow through the graph are always produced
by `LLMConstraints.model_validate(...).model_dump(exclude_none=True)` and
`merge_constraints_dict`, so we embed them as a typed record of optional
fields (the `LLMConstraints` schema; its fields coincide with the
tool-relevant allowlist).  Python truthiness of each field is modelled
explicitly. -/

/-- A calendar date (`datetime.date`). -/
structure PDate where
  y : Nat
  m : Nat
  d : Nat
deriving DecidableEq, Repr

/-- ISO serialization, modelling `date.isoformat()` / `str(date)`. -/
def PDate.iso (dt : PDate) : String := isoDate dt.y dt.m dt.d

/-- The `LLMConstraints` schema: every field optional.  `adults`,
`children`, `rooms` are ints; `max_price`, `min_star` floats (embedded as
rationals). -/
structure LCon where
  city : Option String := none
  check_in : Option PDate := none
  check_out : Option PDate := none
  adults : Option Nat := none
  children : Option Nat := none
  rooms : Option Nat := none
  max_price : Option Rat := none
  min_star : Option Rat := none
  amenities : Option (List String) := none
  currency : Option String := none
  refundable_preferred : Option Bool := none
deriving DecidableEq, Repr

/-- Right-biased field update: the update value wins when present
(`model_dump(exclude_none=True)` drops absent fields before the merge). -/
def updField {α : Type} (b u : Option α) : Option α :=
  match u with
  | some v => some v
  | none => b

/-- Embedding of `merge_constraints_dict(base, update)`. -/
def mergeC (base : LCon) (update : Option LCon) : LCon :=
  match update with
  | none => base
  | some u =>
    { city := updField base.city u.city
      check_in := updField base.check_in u.check_in
      check_out := updField base.check_out u.check_out
      adults := updField base.adults u.adults
      children := updField base.children u.children
      rooms := updField base.rooms u.rooms
      max_price := updField base.max_price u.max_price
      min_star := updField base.min_star u.min_star
      amenities := updField base.amenities u.amenities
      currency := updField base.currency u.currency
      refundable_preferred := updField base.refundable_preferred u.refundable_preferred }

/-- Python truthiness of an optional string (`None` and `""` are falsy). -/
def strTruthy : Option String → Bool
  | some s => !(s == "")
  | none => false

/-- Python truthiness of an optional int (`None` and `0` are falsy). -/
def natTruthy : Option Nat → Bool
  | some n => !(n == 0)
  | none => false

/-- Python truthiness of an optional float (`None` and `0.0` are falsy). -/
def ratTruthy : Option Rat → Bool
  | some q => !(q == 0)
  | none => false

/-- Embedding of `Constraints.is_complete`:
`bool(city and check_in and check_out and adults and rooms)` (a present
date is always truthy). -/
def LCon.is_complete (c : LCon) : Bool :=
  strTruthy c.city && c.check_in.isSome && c.check_out.isSome &&
    natTruthy c.adults && natTruthy c.rooms

/-- Embedding of `missing_required_fields(constraints)`. -/
def missing_required_fields (c : LCon) : List String :=
  (if !strTruthy c.city then ["city"] else []) ++
  (if !c.check_in.isSome || !c.check_out.isSome then ["dates"] else []) ++
  (if !natTruthy c.adults then ["adults"] else []) ++
  (if !natTruthy c.rooms then ["rooms"] else [])

/-- Embedding of `clarify_message(missing, constraints)`: the fixed
clarification question template. -/
def clarify_message (missing : List String) (c : LCon) : String :=
  let cityS := c.city.getD ""
  let ciS := (c.check_in.map PDate.iso).getD ""
  let coS := (c.check_out.map PDate.iso).getD ""
  if missing == ["adults", "rooms"] && strTruthy c.city && c.check_in.isSome &&
      c.check_out.isSome then
    "I can search " ++ cityS ++ " for " ++ ciS ++ " to " ++ coS ++
      ". How many adults and rooms?"
  else if missing.contains "dates" && strTruthy c.city then
    "What dates should I use for " ++ cityS ++ "? (YYYY-MM-DD to YYYY-MM-DD)"
  else if missing.contains "city" && missing.contains "dates" then
    "Which city and dates? (Example: Austin, 2026-03-10 to 2026-03-12)"
  else if missing.contains "city" then
    "Which city should I search in?"
  else if missing.contains "dates" then
    "What are your check-in and check-out dates? (YYYY-MM-DD to YYYY-MM-DD)"
  else if missing.contains "adults" && missing.contains "rooms" then
    "How many adults and rooms?"
  else if missing.contains "adults" then
    "How many adults?"
  else if missing.contains "rooms" then
    "How many rooms?"
  else
    "What details should I use to continue?"

/-- A candidate hotel record, with the fields the orchestrator reads. -/
structure Candidate where
  hotel_id : String
  name : Option String := none
  city : Option String := none
  neighborhood : Option String := none
  star_rating : Option Rat := none
deriving DecidableEq, Repr

/-- A priced offer record.  Prices are exact cent counts; timestamps are
their ISO serializations. -/
structure Offer where
  offer_id : String
  hotel_id : String
  total_price : Nat
  taxes_total : Nat := 0
  fees_total : Nat := 0
  refundable : Bool := false
  cancellation_deadline : Option String := none
  inventory_status : String := ""
  last_priced_ts : String := ""
  expires_ts : String := ""
  room_type : String := ""
  bed_config : String := ""
  rate_plan : String := ""
deriving DecidableEq, Repr

/-- One element of `ranked_offers`: an offer with its score. -/
structure RankedItem where
  offer : Offer
  score : Rat := 0
deriving DecidableEq, Repr

/-- An offer card: the offer dict decorated with candidate hotel fields
(built by `_build_offer_cards` / `find_selected_offer`). -/
structure Card where
  offer : Offer
  hotel_name : String := "Unknown hotel"
  city : Option String := none
  neighborhood : Option String := none
  star_rating : Option Rat := none
deriving DecidableEq, Repr

/-- Embedding of `find_selected_offer`: locate a selected offer strictly
from tool-provided session data, preferring `recommended_offers`, then
decorating a raw offer with its candidate hotel fields. -/
def find_selected_offer (oid : Option String) (recommended : List Card)
    (offers : List Offer) (candidates : List Candidate) : Option Card :=
  match oid with
  | none => none
  | some oid =>
    match recommended.find? (fun c => c.offer.offer_id == oid) with
    | some c => some c
    | none =>
      match offers.find? (fun o => o.offer_id == oid) with
      | none => none
      | some target =>
        let h := candidates.find? (fun cand => cand.hotel_id == target.hotel_id)
        some { offer := target
               hotel_name := (h.bind Candidate.name).getD "Unknown hotel"
               city := h.bind Candidate.city
               neighborhood := h.bind Candidate.neighborhood
               star_rating := h.bind Candidate.star_rating }

/-! ## Graph state, actions and oracles (`graph.py`) -/

/-- The three external query tools. -/
inductive ToolName where
  | search_candidates
  | get_offers
  | rank_offers
deriving DecidableEq, Repr

/-- Response intents of `AgentActionRespond.kind`. -/
inductive RespondKind where
  | clarify
  | explain
  | confirm
  | generic
deriving DecidableEq, Repr

/-- The `AgentActionCallTool` schema (the payload is transparency-only:
the server re-derives tool payloads from state, so it is not embedded). -/
structure CallToolAction where
  tool_name : ToolName
  constraints_update : Option LCon := none
deriving DecidableEq, Repr

/-- The `AgentActionRespond` schema. -/
structure RespondAction where
  kind : RespondKind := .generic
  message : Option String := none
  constraints_update : Option LCon := none
deriving DecidableEq, Repr

/-- The discriminated `AgentAction` union. -/
inductive AgentAction where
  | call_tool (a : CallToolAction)
  | respond (a : RespondAction)
deriving DecidableEq, Repr

/-- The constraints update carried by a decision proposal. -/
def actionUpdate : AgentAction → Option LCon
  | .call_tool a => a.constraints_update
  | .respond a => a.constraints_update

/-- The graph's working state (`GraphState`).  `tool_constraints_key`
distinguishes the key being absent from the dict (`none`), present with
value `None` (`some none`), and present with a fingerprint string
(`some (some k)`), because `_llm_decide` tests both
`"tool_constraints_key" not in state` and the truthiness of the value. -/
structure GState where
  user_message : String := ""
  constraints : LCon := {}
  candidates : List Candidate := []
  offers : List Offer := []
  ranked_offers : List RankedItem := []
  recommended_offers : List Card := []
  reasons : List String := []
  tool_constraints_key : Option (Option String) := none
  selected_offer_id : Option String := none
  last_selected_offer_id : Option String := none
  llm_action : Option AgentAction := none
  tool_calls_this_turn : Nat := 0
  assistant_message : String := ""
  agent_state : String := ""
  end_turn : Bool := false
deriving DecidableEq, Repr

/-- The guardrail configuration (`AgentSettings`), with its defaults. -/
structure AgentSettings where
  max_tool_calls_per_turn : Nat := 8
  max_hotels_priced_per_turn : Nat := 20
  max_wall_clock_ms : Nat := 8000
  tool_timeout_ms : Nat := 2500
  tool_max_retries : Nat := 2
deriving DecidableEq, Repr

/-- Serialize a typed constraints record back to the dict that
`model_dump(exclude_none=True)` yields (fields in schema order; `None`
fields dropped; dates as date values). -/
def lconToDict (c : LCon) : CDict :=
  (match c.city with | some v => [("city", CVal.s v)] | none => []) ++
  (match c.check_in with | some v => [("check_in", CVal.date v.y v.m v.d)] | none => []) ++
  (match c.check_out with | some v => [("check_out", CVal.date v.y v.m v.d)] | none => []) ++
  (match c.adults with | some v => [("adults", CVal.i v)] | none => []) ++
  (match c.children with | some v => [("children", CVal.i v)] | none => []) ++
  (match c.rooms with | some v => [("rooms", CVal.i v)] | none => []) ++
  (match c.max_price with | some v => [("max_price", CVal.f v)] | none => []) ++
  (match c.min_star with | some v => [("min_star", CVal.f v)] | none => []) ++
  (match c.amenities with | some v => [("amenities", CVal.strList v)] | none => []) ++
  (match c.currency with | some v => [("currency", CVal.s v)] | none => []) ++
  (match c.refundable_preferred with | some v => [("refundable_preferred", CVal.b v)] | none => [])

/-- The fingerprint of a turn's constraints:
`_tool_constraints_key(LLMConstraints.model_validate(...).model_dump(exclude_none=True))`. -/
def fingerprint (c : LCon) : String := tool_constraints_key (lconToDict c)

/-- The `LLMExtraction` schema (an empty `offer_id` string is normalized
to `None` before validation, so the option is never `some ""`). -/
structure LLMExtractionRes where
  constraints_update : Option LCon := none
  offer_id : Option String := none
deriving DecidableEq, Repr

/-- The `LLMDateResolve` schema. -/
structure LLMDateResolveRes where
  check_in : Option PDate := none
  check_out : Option PDate := none
  needs_clarification : Bool := false
  question : Option String := none
deriving DecidableEq, Repr

/-- The `LLMCityResolve` schema. -/
structure LLMCityResolveRes where
  city : Option String := none
  needs_clarification : Bool := false
  question : Option String := none
deriving DecidableEq, Repr

/-- The `LLMOccupancyResolve` schema. -/
structure LLMOccupancyResolveRes where
  adults : Option Nat := none
  children : Option Nat := none
  rooms : Option Nat := none
  needs_clarification : Bool := false
  question : Option String := none
deriving DecidableEq, Repr

/-- The `LLMAmenitiesResolve` schema. -/
structure LLMAmenitiesResolveRes where
  amenities : Option (List String) := none
  refundable_preferred : Option Bool := none
  needs_clarification : Bool := false
  question : Option String := none
deriving DecidableEq, Repr

/-- The `LLMBudgetResolve` schema (no clarification field exists). -/
structure LLMBudgetResolveRes where
  max_price : Option Rat := none
deriving DecidableEq, Repr

/-- The `HardFilterKey` literal union. -/
inductive HardFilterKey where
  | max_price
  | min_star
  | amenities
  | refundable_preferred
deriving DecidableEq, Repr

/-- The `LLMHardFiltersSet` schema. -/
structure LLMHardFiltersSetRes where
  max_price : Option Rat := none
  min_star : Option Rat := none
  amenities : Option (List String) := none
  refundable_preferred : Option Bool := none
deriving DecidableEq, Repr

/-- The `LLMHardFiltersPatch` schema. -/
structure LLMHardFiltersPatchRes where
  set : Option LLMHardFiltersSetRes := none
  clear : List HardFilterKey := []
deriving DecidableEq, Repr

/-- What the natural-language resolution capability returns during one
pass through the decision node.  `none` for a stage means every retry of
that stage failed schema validation (the stage then degrades to leaving
state unchanged; for the decision stage, to a generic failure response). -/
structure DecideOracle where
  extraction : Option LLMExtractionRes := none
  dateResolve : Option LLMDateResolveRes := none
  cityResolve : Option LLMCityResolveRes := none
  occupancyResolve : Option LLMOccupancyResolveRes := none
  amenitiesResolve : Option LLMAmenitiesResolveRes := none
  budgetResolve : Option LLMBudgetResolveRes := none
  hardFiltersPatch : Option LLMHardFiltersPatchRes := none
  decideAction : Option AgentAction := none

/-- The external collaborators of one turn: per-decision-pass resolver
results (indexed by the number of decision passes so far), per-invocation
tool results (indexed by the number of tool invocations so far), and the
response-generation texts (indexed by attempt). -/
structure Oracle where
  decide : Nat → DecideOracle
  searchResult : Nat → List Candidate
  offersResult : Nat → List Offer
  rankResult : Nat → (List RankedItem × List String)
  respondText : Nat → String

/-- The supported-amenity allowlist `_TOOL_AMENITY_ALLOWLIST`. -/
def TOOL_AMENITY_ALLOWLIST : List String :=
  ["wifi", "breakfast_included", "pool", "gym", "parking", "pet_friendly",
   "airport_shuttle", "spa", "restaurant", "bar"]

/-! ## Resolver pipeline (`_llm_decide` steps 1 – 1e) -/

/-- Step 1: free-text extraction; runs only at the start of the user turn
(`tool_calls_this_turn == 0`).  Returns the updated state and the
extracted offer id. -/
def extractStage (d : DecideOracle) (s : GState) : GState × Option String :=
  if s.tool_calls_this_turn == 0 then
    match d.extraction with
    | some ext =>
      ({ s with constraints := mergeC s.constraints ext.constraints_update },
       ext.offer_id)
    | none => (s, none)
  else (s, none)

/-- The default date question used when the resolver supplies a blank one. -/
def DATE_DEFAULT_QUESTION : String := "What dates should I use? (YYYY-MM-DD to YYYY-MM-DD)"

/-- Step 1b: dedicated date resolution, run when `"dates"` is still
missing after extraction and no tool has run this turn.  On
`needs_clarification` the turn ends with the resolver's question
stripped of surrounding whitespace (or a fixed default when blank). -/
def dateStage (d : DecideOracle) (s : GState) : GState :=
  if (missing_required_fields s.constraints).contains "dates" &&
      s.tool_calls_this_turn == 0 then
    match d.dateResolve with
    | some dr =>
      if dr.needs_clarification then
        let q0 := pyStrip (dr.question.getD "")
        let q := if q0 == "" then DATE_DEFAULT_QUESTION else q0
        { s with
          assistant_message := q,
          agent_state := "COLLECT_CONSTRAINTS",
          end_turn := true }
      else
        match dr.check_in, dr.check_out with
        | some ci, some co =>
          { s with constraints :=
              mergeC s.constraints (some { check_in := some ci, check_out := some co }) }
        | _, _ => s
    | none => s
  else s

/-- City resolver (first part of `_resolve_non_date_fields`): runs iff
the city is missing; on `needs_clarification` the turn ends with the
deterministic template question (the resolver's own question is
discarded to keep city questions deterministic). -/
def cityStage (d : DecideOracle) (s : GState) : GState :=
  if !(strTruthy s.constraints.city) then
    match d.cityResolve with
    | some r =>
      if r.needs_clarification then
        { s with
          assistant_message := clarify_message ["city"] s.constraints,
          agent_state := "COLLECT_CONSTRAINTS",
          end_turn := true }
      else if strTruthy r.city then
        { s with constraints := mergeC s.constraints (some { city := r.city }) }
      else s
    | none => s
  else s

/-- Occupancy resolver: runs iff adults or rooms are missing; on
`needs_clarification` the turn ends with the deterministic template
question over the missing occupancy fields. -/
def occupancyStage (d : DecideOracle) (s : GState) : GState :=
  if !(natTruthy s.constraints.adults) || !(natTruthy s.constraints.rooms) then
    match d.occupancyResolve with
    | some r =>
      if r.needs_clarification then
        let missing :=
          (if !(natTruthy s.constraints.adults) then ["adults"] else []) ++
          (if !(natTruthy s.constraints.rooms) then ["rooms"] else [])
        { s with
          assistant_message := clarify_message missing s.constraints,
          agent_state := "COLLECT_CONSTRAINTS",
          end_turn := true }
      else
        { s with
          constraints := mergeC s.constraints
            (some { adults := r.adults, children := r.children, rooms := r.rooms }) }
    | none => s
  else s

/-- Amenities/refundable resolver: runs when the amenity list contains an
unsupported entry, or when `refundable_preferred` is unset on a
refinement turn (tool state cached, no tool call yet this turn).  A
clarification request from the model is ignored and the pipeline
proceeds; a valid result merges amenities and the refundable flag. -/
def amenitiesStage (d : DecideOracle) (s : GState) : GState :=
  let cur := s.constraints
  let amenities := cur.amenities.getD []
  let needsAmenityFix :=
    !amenities.isEmpty && amenities.any (fun a => !(TOOL_AMENITY_ALLOWLIST.contains a))
  let hasToolState :=
    !s.recommended_offers.isEmpty || !s.ranked_offers.isEmpty ||
      !s.offers.isEmpty || !s.candidates.isEmpty
  let atTurnStart := s.tool_calls_this_turn == 0
  let needsRefundableResolve :=
    cur.refundable_preferred.isNone && hasToolState && atTurnStart
  if needsAmenityFix || needsRefundableResolve then
    match d.amenitiesResolve with
    | some r =>
      if r.needs_clarification then s
      else
        { s with
          constraints := mergeC cur
            (some { amenities := r.amenities,
                    refundable_preferred := r.refundable_preferred }) }
    | none => s
  else s

/-- Step 1c, `_resolve_non_date_fields`: city, then occupancy, then
amenities, each aborting the pipeline if the previous one ended the turn. -/
def nonDateStage (d : DecideOracle) (s : GState) : GState :=
  let s1 := cityStage d s
  if s1.end_turn then s1
  else
    let s2 := occupancyStage d s1
    if s2.end_turn then s2
    else amenitiesStage d s2

/-- Step 1d, `_resolve_budget`: fills `max_price` when missing; it has no
clarification path and leaves state unchanged on resolver failure. -/
def budgetStage (d : DecideOracle) (s : GState) : GState :=
  if ratTruthy s.constraints.max_price then s
  else
    match d.budgetResolve with
    | some r =>
      if ratTruthy r.max_price then
        { s with constraints := mergeC s.constraints (some { max_price := r.max_price }) }
      else s
    | none => s

/-- Clear one hard-filter key (`cur.pop(k, None)`). -/
def clearKey (c : LCon) : HardFilterKey → LCon
  | .max_price => { c with max_price := none }
  | .min_star => { c with min_star := none }
  | .amenities => { c with amenities := none }
  | .refundable_preferred => { c with refundable_preferred := none }

/-- Lift a hard-filters `set` payload into a constraints update. -/
def setToLCon (st : LLMHardFiltersSetRes) : LCon :=
  { max_price := st.max_price, min_star := st.min_star,
    amenities := st.amenities, refundable_preferred := st.refundable_preferred }

/-- Step 1e, `_resolve_hard_filters_patch`: runs only before any tool
call this turn; clears the listed keys then merges the `set` payload;
never asks a question. -/
def hardFiltersStage (d : DecideOracle) (s : GState) : GState :=
  if s.tool_calls_this_turn != 0 then s
  else
    match d.hardFiltersPatch with
    | some p =>
      let c1 := p.clear.foldl clearKey s.constraints
      let c2 :=
        match p.set with
        | some st => mergeC c1 (some (setToLCon st))
        | none => c1
      { s with constraints := c2 }
    | none => s

/-- The resolution prelude of `_llm_decide` (steps 1 – 1e), with the
per-step early returns on `_end_turn`.  Also models the entry
bookkeeping: `agent_state = "LLM_DECIDE"`, `_end_turn` popped. -/
def resolvePhase (d : DecideOracle) (s : GState) : GState × Option String :=
  let s0 := { s with agent_state := "LLM_DECIDE", end_turn := false }
  let se := extractStage d s0
  let s2 := dateStage d se.1
  if s2.end_turn then (s2, se.2)
  else
    let s3 := if s2.tool_calls_this_turn == 0 then nonDateStage d s2 else s2
    if s3.end_turn then (s3, se.2)
    else
      let s4 := if s3.tool_calls_this_turn == 0 then budgetStage d s3 else s3
      if s4.end_turn then (s4, se.2)
      else
        let s5 := if s4.tool_calls_this_turn == 0 then hardFiltersStage d s4 else s4
        (s5, se.2)

/-! ## Cache invalidation and the decision step (`_llm_decide`) -/

/-- Is any tool-derived cache present (`has_tool_cache`)? -/
def hasToolCache (s : GState) : Bool :=
  !s.candidates.isEmpty || !s.offers.isEmpty || !s.ranked_offers.isEmpty ||
    !s.recommended_offers.isEmpty

/-- Discard every cached tool result and null the stored fingerprint
(the explicit overwrites of the invalidation branches). -/
def clearToolCache (s : GState) : GState :=
  { s with
    candidates := [],
    offers := [],
    ranked_offers := [],
    recommended_offers := [],
    reasons := [],
    tool_constraints_key := some none }

/-- The cache-coherence block of `_llm_decide`, run on every pass through
the decision node: (a) backward compatibility — cached tool state with no
stored key at all is discarded once; (b) if the stored fingerprint is
truthy and differs from the fingerprint of the current constraints, all
cached tool state is discarded and the stored key nulled. -/
def invalidatePhase (s : GState) : GState :=
  let curKey := fingerprint s.constraints
  let s1 :=
    if hasToolCache s && s.tool_constraints_key.isNone then clearToolCache s else s
  match s1.tool_constraints_key with
  | some (some k) => if !(k == "") && !(k == curKey) then clearToolCache s1 else s1
  | _ => s1

/-- The fixed hint message of the no-repricing confirm action. -/
def CONFIRM_SELECTED_MSG : String :=
  "Confirm the selected offer using only tool-provided fields already present in session context."

/-- The fixed message when a selected offer id has no session context. -/
def NO_OFFER_CONTEXT_MSG : String :=
  "I don\x27t have that offer loaded in this session. Do you want me to search again (same city/dates), or provide the city + dates + adults + rooms?"

/-- In-session tool-derived offer context (`has_offer_context`); note
that bare candidates do not count. -/
def hasOfferContext (s : GState) : Bool :=
  !s.recommended_offers.isEmpty || !s.ranked_offers.isEmpty || !s.offers.isEmpty

/-- The canonical next tool of the strict pipeline, given the caches
(consulted only when constraints are complete): search without
candidates, then price, then rank; `none` once ranked offers exist. -/
def expectedTool (s : GState) : Option ToolName :=
  if s.candidates.isEmpty then some .search_candidates
  else if s.offers.isEmpty then some .get_offers
  else if s.ranked_offers.isEmpty then some .rank_offers
  else none

/-- The minimal-clarification early exit at the end of the respond
branch: if required fields are still missing, the model asked to clarify,
and its update added nothing, end the turn with the template question. -/
def decideClarifyExit (a : RespondAction) (prevAfterPrelude : LCon) (s : GState) : GState :=
  let missingNow := missing_required_fields s.constraints
  if a.kind == .clarify && !missingNow.isEmpty && prevAfterPrelude == s.constraints then
    { s with
      assistant_message := clarify_message missingNow s.constraints,
      agent_state := "COLLECT_CONSTRAINTS",
      end_turn := true }
  else s

/-- Processing of the external decision proposal (`_llm_decide` step 2
after the selection branch): merge the proposal's constraints update,
then apply the deterministic guardrail overrides.  `extId` is the offer
id extracted this turn (always `none` when this code is reached, since
the selection branch returns first; the dead `confirm` check is kept for
faithfulness). -/
def decideActionStep (d : DecideOracle) (extId : Option String) (s : GState) : GState :=
  match d.decideAction with
  | none =>
    { s with llm_action := some (.respond
        { kind := .generic, message := some "Model decision failed." }) }
  | some (.call_tool a) =>
    let s := { s with constraints := mergeC s.constraints a.constraints_update }
    let c := s.constraints
    if c.is_complete then
      match expectedTool s with
      | some t =>
        if a.tool_name != t then
          { s with llm_action := some (.call_tool { tool_name := t }) }
        else
          { s with llm_action := some (.call_tool a) }
      | none =>
        { s with llm_action := some (.respond
            { kind := .explain, message := some "Show top offers." }) }
    else
      { s with llm_action := some (.call_tool a) }
  | some (.respond a) =>
    let prevAfterPrelude := s.constraints
    let s := { s with constraints := mergeC s.constraints a.constraints_update }
    let s := { s with llm_action := some (.respond a) }
    let s :=
      if a.kind == .confirm && extId.isSome then { s with selected_offer_id := extId }
      else s
    if s.constraints.is_complete then
      if s.candidates.isEmpty then
        { s with llm_action := some (.call_tool { tool_name := .search_candidates }) }
      else if s.offers.isEmpty then
        { s with llm_action := some (.call_tool { tool_name := .get_offers }) }
      else if s.ranked_offers.isEmpty then
        { s with llm_action := some (.call_tool { tool_name := .rank_offers }) }
      else
        decideClarifyExit a prevAfterPrelude s
    else
      decideClarifyExit a prevAfterPrelude s

/-- The action choice of `_llm_decide` step 2: the no-repricing selection
branch, then the external decision proposal with guardrails. -/
def chooseAction (d : DecideOracle) (extId : Option String) (s : GState) : GState :=
  match extId with
  | some oid =>
    if hasOfferContext s then
      { s with
        selected_offer_id := some oid,
        llm_action := some (.respond
          { kind := .confirm, message := some CONFIRM_SELECTED_MSG }) }
    else
      { s with llm_action := some (.respond
          { kind := .clarify, message := some NO_OFFER_CONTEXT_MSG }) }
  | none => decideActionStep d extId s

/-- Step 2 of `_llm_decide`: cache invalidation, then the action choice. -/
def decidePhase (d : DecideOracle) (extId : Option String) (s : GState) : GState :=
  chooseAction d extId (invalidatePhase s)

/-- The whole `_llm_decide` node: resolution prelude, then (unless a
resolver ended the turn) invalidation and decision. -/
def llmDecide (d : DecideOracle) (s : GState) : GState :=
  let r := resolvePhase d s
  if r.1.end_turn then r.1 else decidePhase d r.2 r.1

/-! ## Routing and the tool-call node -/

/-- The graph's routing targets. -/
inductive Route where
  | DECIDE
  | CALL_TOOL
  | RESPOND
  | END
deriving DecidableEq, Repr

/-- Embedding of `_route_after_llm_decide`. -/
def route_after_llm_decide (s : GState) : Route :=
  if s.end_turn then .END
  else
    match s.llm_action with
    | some (.call_tool _) => .CALL_TOOL
    | some (.respond _) => .RESPOND
    | none => .END

/-- Embedding of `_route_after_call_tool`. -/
def route_after_call_tool (s : GState) : Route :=
  match s.llm_action with
  | some (.respond _) => .RESPOND
  | _ => .DECIDE

/-- Embedding of `_call_search_candidates`.  `nInv` indexes the tool
oracle by the number of invocations made so far; the returned list
records whether the tool client was invoked. -/
def callSearch (o : Oracle) (nInv : Nat) (s : GState) : GState × List ToolName :=
  let c := s.constraints
  if !c.is_complete then
    ({ s with llm_action := some (.respond
        { kind := .clarify,
          message := some (clarify_message (missing_required_fields c) c) }) }, [])
  else
    let s := { s with
      offers := [],
      ranked_offers := [],
      recommended_offers := [],
      reasons := [],
      tool_constraints_key := some (some (fingerprint c)) }
    let result := o.searchResult nInv
    let s := { s with candidates := result }
    if result.isEmpty then
      ({ s with llm_action := some (.respond
          { kind := .generic,
            message := some "No candidate hotels matched these constraints." }) },
       [.search_candidates])
    else (s, [.search_candidates])

/-- Embedding of `_call_get_offers`: requires priced-candidate ids and
resolved dates, else degrades to a clarify response without invoking the
tool; the candidate list is capped at `max_hotels_priced_per_turn`. -/
def callGetOffers (cfg : AgentSettings) (o : Oracle) (nInv : Nat) (s : GState) :
    GState × List ToolName :=
  let c := s.constraints
  let hotelIds := (s.candidates.take cfg.max_hotels_priced_per_turn).map Candidate.hotel_id
  if hotelIds.isEmpty || !c.check_in.isSome || !c.check_out.isSome then
    ({ s with llm_action := some (.respond
        { kind := .clarify,
          message := some (clarify_message (missing_required_fields c) c) }) }, [])
  else
    let result := o.offersResult nInv
    ({ s with offers := result }, [.get_offers])

/-- Embedding of `_call_rank_offers`: requires a non-empty offer list,
else degrades to a generic response without invoking the tool; on success
it deterministically transitions to `respond / explain`. -/
def callRank (o : Oracle) (nInv : Nat) (s : GState) : GState × List ToolName :=
  if s.offers.isEmpty then
    ({ s with llm_action := some (.respond
        { kind := .generic, message := some "No offers available to rank." }) }, [])
  else
    let rr := o.rankResult nInv
    ({ s with
       ranked_offers := rr.1,
       reasons := rr.2,
       llm_action := some (.respond
         { kind := .explain, message := some "Show top offers." }) },
     [.rank_offers])

/-- Embedding of `_call_tool`: the per-turn budget guardrail, then
dispatch on the named tool with a payload re-derived from state. -/
def callToolStep (cfg : AgentSettings) (o : Oracle) (nInv : Nat) (s : GState) :
    GState × List ToolName :=
  let s := { s with agent_state := "CALL_TOOL" }
  match s.llm_action with
  | some (.call_tool a) =>
    let used := s.tool_calls_this_turn
    if used ≥ cfg.max_tool_calls_per_turn then
      ({ s with llm_action := some (.respond
          { kind := .generic,
            message := some "Tool call limit reached for this turn." }) }, [])
    else
      let s := { s with tool_calls_this_turn := used + 1 }
      match a.tool_name with
      | .search_candidates => callSearch o nInv s
      | .get_offers => callGetOffers cfg o nInv s
      | .rank_offers => callRank o nInv s
  | _ => (s, [])

/-! ## Offer cards and the respond node (`_build_offer_cards`,
`_llm_respond`) -/

/-- Candidate lookup by hotel id.  The Python code builds a dict
comprehension, in which a later duplicate key overwrites an earlier one,
so the lookup takes the last matching candidate. -/
def candLookup (candidates : List Candidate) (hid : String) : Option Candidate :=
  candidates.reverse.find? (fun h => h.hotel_id == hid)

/-- Embedding of `_build_offer_cards`: filter ranked offers by the
minimum-star constraint (hotels with unknown rating are dropped; the
typed `min_star` is always float-convertible, collapsing the defensive
`float()` fallback), keep the top three, decorate with candidate fields,
and collect the grounding allow-sets (prices in cents, timestamps as ISO
strings). -/
def build_offer_cards (s : GState) : List Card × List Nat × List String :=
  let ranked : List RankedItem :=
    match s.constraints.min_star with
    | some ms =>
      s.ranked_offers.filter (fun item =>
        match (candLookup s.candidates item.offer.hotel_id).bind Candidate.star_rating with
        | some st => decide (st ≥ ms)
        | none => false)
    | none => s.ranked_offers
  let top := ranked.take 3
  let cards := top.map (fun item =>
    let h := candLookup s.candidates item.offer.hotel_id
    { offer := item.offer
      hotel_name := (h.bind Candidate.name).getD "Unknown hotel"
      city := h.bind Candidate.city
      neighborhood := h.bind Candidate.neighborhood
      star_rating := h.bind Candidate.star_rating })
  let prices := top.flatMap (fun item : RankedItem =>
    [item.offer.total_price, item.offer.taxes_total, item.offer.fees_total])
  let tss := top.flatMap (fun item : RankedItem =>
    [item.offer.last_priced_ts, item.offer.expires_ts] ++
      (match item.offer.cancellation_deadline with | some cd => [cd] | none => []))
  (cards, prices, tss)

/-- Render an optional rational the way Python renders the value or
`None` in an f-string. -/
def fmtOptRat : Option Rat → String
  | some q => toString q
  | none => "None"

/-- Embedding of `_format_offer_card_lines` (tool-only card renderer). -/
def format_offer_card_lines (card : Card) : String :=
  "- offer_id: " ++ card.offer.offer_id ++ "\n" ++
  "  hotel_id: " ++ card.offer.hotel_id ++ "\n" ++
  "  hotel: " ++ card.hotel_name ++ "\n" ++
  "  star_rating: " ++ fmtOptRat card.star_rating ++ "\n" ++
  "  total_price: $" ++ fmtCents card.offer.total_price ++ "\n" ++
  "  taxes_total: $" ++ fmtCents card.offer.taxes_total ++ "\n" ++
  "  fees_total: $" ++ fmtCents card.offer.fees_total ++ "\n" ++
  "  refundable: " ++ (if card.offer.refundable then "True" else "False") ++ "\n" ++
  "  cancellation_deadline: " ++ card.offer.cancellation_deadline.getD "None" ++ "\n" ++
  "  inventory_status: " ++ card.offer.inventory_status ++ "\n" ++
  "  last_priced_ts: " ++ card.offer.last_priced_ts ++ "\n" ++
  "  expires_ts: " ++ card.offer.expires_ts ++ "\n" ++
  "  room_type: " ++ card.offer.room_type ++ "\n" ++
  "  bed_config: " ++ card.offer.bed_config ++ "\n" ++
  "  rate_plan: " ++ card.offer.rate_plan

/-- Embedding of `_render_top_offers_message` (deterministic tool-only
top-3 renderer). -/
def render_top_offers_message (c : LCon) (offers : List Card) : String :=
  let city := if strTruthy c.city then c.city.getD "" else "(city unknown)"
  let ci := match c.check_in with | some d => d.iso | none => "(check_in unknown)"
  let co := match c.check_out with | some d => d.iso | none => "(check_out unknown)"
  let occ :=
    (match c.adults with
     | some a => [toString a ++ " adult" ++ (if a == 1 then "" else "s")]
     | none => []) ++
    (match c.rooms with
     | some r => [toString r ++ " room" ++ (if r == 1 then "" else "s")]
     | none => [])
  let occS := if occ.isEmpty then "" else " • " ++ String.intercalate ", " occ
  let starS := match c.min_star with
    | some ms => " (min " ++ toString ms ++ "-star)"
    | none => ""
  let header := "Top 3 offers (tool-provided) for " ++ city ++ starS ++ " • " ++
    ci ++ " to " ++ co ++ occS ++ ":"
  let blocks := (offers.take 3).mapIdx
    (fun i o => toString (i + 1) ++ ")\n" ++ format_offer_card_lines o)
  let body := if blocks.isEmpty then "(no offers)" else String.intercalate "\n\n" blocks
  header ++ "\n\n" ++ body ++ "\n\nSelect by replying with the offer_id."

/-- Embedding of `_render_selected_offer_message`. -/
def render_selected_offer_message (c : LCon) (offer : Card) : String :=
  let city := if strTruthy c.city then c.city.getD "" else "(city unknown)"
  let ci := match c.check_in with | some d => d.iso | none => "(check_in unknown)"
  let co := match c.check_out with | some d => d.iso | none => "(check_out unknown)"
  "Selected offer (tool-provided) for " ++ city ++ " • " ++ ci ++ " to " ++ co ++
    ":\n\n" ++ format_offer_card_lines offer ++
    "\n\nReply with a different offer_id to choose another option."

/-- Naive substring test (used for the `"hotel_id" in msg.lower()` and
`"offer_id" in msg.lower()` checks). -/
def isSubAux : List Char → List Char → Bool
  | pat, [] => pat.isEmpty
  | pat, c :: rest => pat.isPrefixOf (c :: rest) || isSubAux pat rest

/-- Substring membership, modelling Python `pat in s`. -/
def strContains (s pat : String) : Bool := isSubAux pat.toList s.toList

/-- The respond action recovered from `llm_action`
(`AgentActionRespond.model_validate(state.get("llm_action") or ...)`;
routing guarantees the action is not a tool call here). -/
def respondActionOf : Option AgentAction → RespondAction
  | some (.respond a) => a
  | _ => {}

/-- The fixed message after the respond retries are exhausted. -/
def RESPOND_FALLBACK_MSG : String :=
  "I couldn\x27t produce a valid response (missing required fields or grounding). Please retry your last message."

/-- The `hotel_id` presence check that makes an explain attempt fail
(`_MissingHotelId`); the analogous confirm check is dead code, since the
confirm path returns before the loop and `context["selected_offer"]` is
never written. -/
def respondAttemptFails (s : GState) (kind : RespondKind) (msg : String) : Bool :=
  kind == .explain && !s.recommended_offers.isEmpty &&
    !(strContains (lowerStr msg) "hotel_id")

/-- The blocks following the generation loop of `_llm_respond`: the
selection-instruction output guardrail, the stable external
`agent_state`, and the selection bookkeeping. -/
def finishRespond (s : GState) (kind : RespondKind) (msg : String) : GState :=
  let s := { s with assistant_message := msg }
  let s :=
    if kind == .explain && !s.recommended_offers.isEmpty &&
        !(strContains (lowerStr s.assistant_message) "offer_id") then
      { s with assistant_message :=
          pyRstrip s.assistant_message ++ "\n\nSelect by replying with the offer_id." }
    else s
  let st :=
    if kind == .explain && !s.recommended_offers.isEmpty then "WAIT_FOR_SELECTION"
    else if kind == .confirm then "CONFIRM"
    else if kind == .clarify then "COLLECT_CONSTRAINTS"
    else "RESPOND"
  let s := { s with agent_state := st }
  if s.selected_offer_id.isSome then
    { s with
      last_selected_offer_id := s.selected_offer_id,
      selected_offer_id := none }
  else s

/-- The bounded generation loop of `_llm_respond` (three attempts).  On
this path the grounding allow-sets are empty — the confirm and
explain-with-ranked branches return before the loop — so
`validate_grounded_response` is never consulted (`if allowed_prices or
allowed_ts` is false); only the `hotel_id` retry check can reject an
attempt.  `attempt` counts the attempts already made. -/
def respondLLMLoop (o : Oracle) (s : GState) (kind : RespondKind) :
    Nat → Nat → GState
  | 0, _ => finishRespond s kind RESPOND_FALLBACK_MSG
  | remaining + 1, attempt =>
    let msg := o.respondText attempt
    if respondAttemptFails s kind msg then
      respondLLMLoop o s kind remaining (attempt + 1)
    else finishRespond s kind msg

/-- Embedding of `_llm_respond`. -/
def llmRespond (o : Oracle) (s : GState) : GState :=
  let s := { s with agent_state := "LLM_RESPOND" }
  let a := respondActionOf s.llm_action
  let kind := a.kind
  let selId := s.selected_offer_id
  if kind == .confirm || selId.isSome then
    match find_selected_offer selId s.recommended_offers s.offers s.candidates with
    | none =>
      { s with
        assistant_message := "I couldn\x27t find that offer_id in this session. Please reply with one of the offer_id values I listed, or ask me to search again.",
        agent_state := "WAIT_FOR_SELECTION" }
    | some sel =>
      { s with
        assistant_message := render_selected_offer_message s.constraints sel,
        agent_state := "CONFIRM" }
  else if !s.ranked_offers.isEmpty then
    let cards := (build_offer_cards s).1
    { s with
      recommended_offers := cards,
      assistant_message := render_top_offers_message s.constraints cards,
      agent_state := "WAIT_FOR_SELECTION" }
  else
    respondLLMLoop o s kind 3 0

/-! ## The turn loop (`build_graph` wiring and `/chat`) -/

/-- One `/chat` request's pass through the compiled graph: DECIDE, then
either END, RESPOND (terminal), or CALL_TOOL looping back to DECIDE.
`dIdx` counts decision passes, `nInv` tool invocations; the returned list
is the sequence of tool-client invocations made.  `fuel` bounds the
number of loop iterations (the real graph loops until a router picks a
terminal edge). -/
def turnLoop (cfg : AgentSettings) (o : Oracle) :
    Nat → Nat → Nat → GState → GState × List ToolName
  | 0, _, _, s => (s, [])
  | fuel + 1, dIdx, nInv, s =>
    let s1 := llmDecide (o.decide dIdx) s
    match route_after_llm_decide s1 with
    | .END => (s1, [])
    | .RESPOND => (llmRespond o s1, [])
    | .DECIDE => (s1, [])
    | .CALL_TOOL =>
      let r2 := callToolStep cfg o nInv s1
      match route_after_call_tool r2.1 with
      | .RESPOND => (llmRespond o r2.1, r2.2)
      | _ =>
        let r3 := turnLoop cfg o fuel (dIdx + 1) (nInv + r2.2.length) r2.1
        (r3.1, r2.2 ++ r3.2)

/-- Embedding of `_reset_per_turn_state` (the `/chat` handler's per-turn
reset: the call counter, the pending action, and the turn-scoped
selection are cleared before the graph runs). -/
def resetPerTurnState (s : GState) : GState :=
  { s with
    tool_calls_this_turn := 0,
    llm_action := none,
    selected_offer_id := none }

/-- One full turn: per-turn reset, then the graph loop. -/
def runTurn (cfg : AgentSettings) (o : Oracle) (fuel : Nat) (s : GState) :
    GState × List ToolName :=
  turnLoop cfg o fuel 0 0 (resetPerTurnState s)

/-- A complete constraint set used in concrete runs. -/
def sampleConstraints : LCon :=
  { city := some "Austin", check_in := some ⟨2026, 3, 10⟩,
    check_out := some ⟨2026, 3, 12⟩, adults := some 2, rooms := some 1,
    max_price := some 1200 }

/-- A sample candidate. -/
def sampleCandidate : Candidate :=
  { hotel_id := "h1", name := some "Hotel One", star_rating := some 4 }

/-- A sample offer. -/
def sampleOffer : Offer :=
  { offer_id := "o1", hotel_id := "h1", total_price := 10000,
    last_priced_ts := "2026-03-01T10:00:00+00:00",
    expires_ts := "2026-03-01T11:00:00+00:00" }

/-- An oracle whose decision step always proposes a bare generic respond
action and whose tools return one result each. -/
def happyOracle : Oracle :=
  { decide := fun _ =>
      { decideAction := some (.respond { kind := .generic, message := some "ok" }) }
    searchResult := fun _ => [sampleCandidate]
    offersResult := fun _ => [sampleOffer]
    rankResult := fun _ => ([{ offer := sampleOffer }], ["cheapest"])
    respondText := fun _ => "resp" }

/-! ## Tool client (`tool_client.py`) and the `/chat` handler's error
handling (`main.py`) -/

/-- Outcome of one HTTP POST attempt: a response status and body, or a
transport exception. -/
inductive Attempt where
  | ok (status : Nat) (body : String)
  | exn (msg : String)
deriving DecidableEq, Repr

/-- The message of the `ToolClientError` raised for an HTTP error status. -/
def toolStatusError (toolName : String) (status : Nat) (body : String) : String :=
  "tool " ++ toolName ++ " failed: " ++ toString status ++ " " ++ body

/-- Is this attempt a retryable failure (`status >= 400` or a transport
exception)? -/
def attemptFails : Attempt → Prop
  | .ok st _ => st ≥ 400
  | .exn _ => True

instance : DecidablePred attemptFails := fun a => by
  cases a <;> unfold attemptFails <;> infer_instance

/-- The retry loop of `ToolClient.call`: try attempt `i`; an HTTP status
of 400 or above or a transport exception is a retryable failure; when no
retries remain, the last failure is re-raised as the typed error.
`remaining` counts the attempts still allowed. -/
def callAux (toolName : String) (attempts : Nat → Attempt) (i retries : Nat) :
    Nat → Except String (String × Nat)
  | 0 => .error "no attempts"
  | remaining + 1 =>
    match attempts i with
    | .ok status body =>
      if status ≥ 400 then
        if remaining == 0 then .error (toolStatusError toolName status body)
        else callAux toolName attempts (i + 1) (retries + 1) remaining
      else .ok (body, retries)
    | .exn m =>
      if remaining == 0 then .error m
      else callAux toolName attempts (i + 1) (retries + 1) remaining

/-- Embedding of `ToolClient.call`: the loop runs `tool_max_retries + 1`
attempts; on success it returns the response body and the retries used,
after exhausting the budget it raises the typed client error. -/
def toolClientCall (cfg : AgentSettings) (toolName : String)
    (attempts : Nat → Attempt) : Except String (String × Nat) :=
  callAux toolName attempts 0 0 (cfg.tool_max_retries + 1)

/-- Exceptions that can escape the graph run inside `/chat`. -/
inductive GraphExc where
  | modelConfig (msg : String)
  | toolClient (msg : String)
deriving DecidableEq, Repr

/-- The `/chat` handler's outcome: a chat response (assistant message
produced and the snapshot persisted), a deliberately raised
`HTTPException`, or an exception the handler does not catch (the web
framework then fails the request; no assistant message is produced and no
snapshot is persisted). -/
inductive ChatOutcome where
  | ok (assistant_message : String) (persisted : Bool)
  | httpException (status : Nat) (detail : String)
  | unhandled (exc : GraphExc)
deriving DecidableEq, Repr

/-- Does the outcome deliver an assistant message to the user? -/
def producesFailureMessage : ChatOutcome → Bool
  | .ok _ _ => true
  | _ => false

/-- Embedding of the `chat` endpoint's error handling around
`GRAPH.ainvoke`: only `ModelConfigError` is caught (and becomes a 500
`HTTPException`); any other exception — in particular `ToolClientError` —
escapes the handler before a response is built or the snapshot is
persisted. -/
def chatStep (graphRun : Except GraphExc GState) : ChatOutcome :=
  match graphRun with
  | .ok out => .ok out.assistant_message true
  | .error (.modelConfig m) => .httpException 500 m
  | .error e => .unhandled e

/-- An oracle whose decision step proposes calling `rank_offers` and
whose resolver stages all fail (leaving constraints unchanged). -/
def rankProposalOracle : Oracle :=
  { decide := fun _ =>
      { decideAction := some (.call_tool { tool_name := .rank_offers }) }
    searchResult := fun _ => []
    offersResult := fun _ => []
    rankResult := fun _ => ([], [])
    respondText := fun _ => "resp" }

/-- A decision-pass oracle whose city resolver asks its own
clarification question. -/
def cityClarifyOracle : DecideOracle :=
  { cityResolve := some { needs_clarification := true, question := some "Which Austin?" } }

/-- An oracle whose extraction stage returns a selected offer id. -/
def selectionOracle : Oracle :=
  { decide := fun _ => { extraction := some { offer_id := some "o1" } }
    searchResult := fun _ => []
    offersResult := fun _ => []
    rankResult := fun _ => ([], [])
    respondText := fun _ => "resp" }

/-- A session state holding priced offers for the selection scenario. -/
def selState : GState :=
  { constraints := sampleConstraints,
    candidates := [sampleCandidate],
    offers := [sampleOffer],
    tool_constraints_key := some (some (fingerprint sampleConstraints)) }

/-- The card the selection scenario's offer decorates to. -/
def selCard : Card :=
  { offer := sampleOffer, hotel_name := "Hotel One", star_rating := some 4 }

/-- A state with cached ranked offers and a minimum-star constraint. -/
def starState : GState :=
  { constraints := { sampleConstraints with min_star := some 3 },
    candidates := [sampleCandidate],
    ranked_offers := [{ offer := sampleOffer }],
    tool_constraints_key :=
      some (some (fingerprint { sampleConstraints with min_star := some 3 })) }

/-- A state with stale cached tool results used in concrete runs. -/
def staleCacheState : GState :=
  { constraints := sampleConstraints,
    candidates := [sampleCandidate],
    offers := [sampleOffer],
    ranked_offers := [{ offer := sampleOffer }],
    recommended_offers := [{ offer := sampleOffer }],
    tool_constraints_key := some (some "stale") }

/-- A mid-turn constraints update (a lowered price cap) as a decision
proposal may carry it. -/
def c2Update : LCon := { max_price := some 900 }

/-- An oracle whose second decision proposal is a `get_offers` call
carrying a constraints update that changes the fingerprint mid-turn;
every other decision proposes a bare generic respond action. -/
def c2Oracle : Oracle :=
  { decide := fun d =>
      if d == 1 then
        { decideAction := some (.call_tool
            { tool_name := .get_offers, constraints_update := some c2Update }) }
      else
        { decideAction := some (.respond { kind := .generic, message := some "ok" }) }
    searchResult := fun _ => [sampleCandidate]
    offersResult := fun _ => [sampleOffer]
    rankResult := fun _ => ([{ offer := sampleOffer }], ["cheapest"])
    respondText := fun _ => "resp" }

/-- The state after the first decision pass forces `search_candidates`
(given the post-resolution state `s0`). -/
def c2S1 (s0 : GState) : GState :=
  { s0 with llm_action := some (.call_tool { tool_name := ToolName.search_candidates }) }

/-- The state after the successful `search_candidates` invocation. -/
def c2S2 (o : Oracle) (nInv : Nat) (s0 : GState) : GState :=
  { c2S1 s0 with
    agent_state := "CALL_TOOL",
    tool_calls_this_turn := (c2S1 s0).tool_calls_this_turn + 1,
    offers := [],
    ranked_offers := [],
    recommended_offers := [],
    reasons := [],
    tool_constraints_key := some (some (fingerprint (c2S1 s0).constraints)),
    candidates := o.searchResult nInv }

/-- The state after the second decision pass forces `get_offers`. -/
def c2S3 (o : Oracle) (nInv : Nat) (s0 : GState) : GState :=
  { c2S2 o nInv s0 with
    agent_state := "LLM_DECIDE",
    end_turn := false,
    llm_action := some (.call_tool { tool_name := ToolName.get_offers }) }

/-- The state after the successful `get_offers` invocation. -/
def c2S4 (o : Oracle) (nInv : Nat) (s0 : GState) : GState :=
  { c2S3 o nInv s0 with
    agent_state := "CALL_TOOL",
    tool_calls_this_turn := (c2S3 o nInv s0).tool_calls_this_turn + 1,
    offers := o.offersResult (nInv + 1) }

/-- The state after the third decision pass forces `rank_offers`. -/
def c2S5 (o : Oracle) (nInv : Nat) (s0 : GState) : GState :=
  { c2S4 o nInv s0 with
    agent_state := "LLM_DECIDE",
    end_turn := false,
    llm_action := some (.call_tool { tool_name := ToolName.rank_offers }) }

example : moneyTokens "Total is $123.45" = ["123.45"] := by decide

example : moneyTokens "pay $1,234.56 now" = ["1,234.56"] := by decide

example : moneyTokens "a$5 and $7.25" = ["7.25"] := by decide

example : tsTokens "Expires at 2026-02-15T12:00:00Z" = ["2026-02-15T12:00:00Z"] := by decide

example : tsTokens "t 2026-02-15T12:00:00.5+00:00 s" = ["2026-02-15T12:00:00.5+00:00"] := by decide

example : validate_grounded_response "Total is $123.45" [12345] [] = .ok := by decide

example :
    validate_grounded_response "Total is $123.46" [12345] [] =
      .violation "ungrounded price $123.46" := by decide

example :
    validate_grounded_response "Expires at 2026-02-15T12:00:00Z" []
      ["2026-02-15T12:00:00+00:00"] = .ok := by decide

theorem mem_expandTs (t : String) (tss : List String) :
    t ∈ expandTs tss ↔
      ∃ a ∈ tss, t = a ∨ (strEndsWith a "+00:00" ∧ t = strDropRight a 6 ++ "Z") := by
  simp only [expandTs, List.mem_flatMap]
  constructor
  · rintro ⟨a, ha, hmem⟩
    refine ⟨a, ha, ?_⟩
    by_cases he : strEndsWith a "+00:00"
    · simp [he] at hmem
      rcases hmem with h | h
      · exact Or.inl h
      · exact Or.inr ⟨he, h⟩
    · simp [he] at hmem
      exact Or.inl hmem
  · rintro ⟨a, ha, h | ⟨he, h⟩⟩
    · refine ⟨a, ha, ?_⟩
      by_cases he : strEndsWith a "+00:00" <;> simp [he, h]
    · exact ⟨a, ha, by simp [he, h]⟩

theorem validate_eq_ok_iff_none (text : String) (prices : List Nat) (tss : List String) :
    validate_grounded_response text prices tss = .ok ↔
      ((moneyTokens text).find?
          (fun tok => !((prices.map fmtCents).contains (stripCommas tok))) = none ∧
       (tsTokens text).find? (fun tok => !((expandTs tss).contains tok)) = none) := by
  simp only [validate_grounded_response]
  cases h1 : (moneyTokens text).find?
      (fun tok => !((prices.map fmtCents).contains (stripCommas tok))) with
  | some tok => simp [h1]
  | none =>
    cases h2 : (tsTokens text).find? (fun tok => !((expandTs tss).contains tok)) with
    | some tok => simp [h2]
    | none => simp [h1, h2]

/-- C1: `validate_grounded_response` accepts a text exactly when every
currency-like token's comma-stripped value is one of the allowed prices
(formatted to two decimals) and every ISO-8601 timestamp token equals one
of the allowed timestamps, where an allowed timestamp ending in `+00:00`
also sanctions the same instant written with the `Z` suffix; equivalently,
it raises a grounding violation iff some token is outside its allow-set. -/
theorem validate_grounded_response_ok_iff (text : String) (prices : List Nat)
    (tss : List String) :
    validate_grounded_response text prices tss = .ok ↔
      ((∀ m ∈ moneyTokens text, stripCommas m ∈ prices.map fmtCents) ∧
       (∀ t ∈ tsTokens text, ∃ a ∈ tss,
          t = a ∨ (strEndsWith a "+00:00" ∧ t = strDropRight a 6 ++ "Z"))) := by
  rw [validate_eq_ok_iff_none]
  rw [List.find?_eq_none, List.find?_eq_none]
  constructor
  · rintro ⟨h1, h2⟩
    refine ⟨fun m hm => ?_, fun t ht => ?_⟩
    · have := h1 m hm
      simp at this
      simpa [List.mem_map] using this
    · have := h2 t ht
      simp at this
      exact (mem_expandTs t tss).mp this
  · rintro ⟨h1, h2⟩
    refine ⟨fun m hm => ?_, fun t ht => ?_⟩
    · have := h1 m hm
      simp [this]
    · have := (mem_expandTs t tss).mpr (h2 t ht)
      simp [this]

theorem charListLe_total (a b : List Char) : charListLe a b || charListLe b a := by
  induction a generalizing b with
  | nil => simp [charListLe]
  | cons x xs ih =>
    cases b with
    | nil => simp [charListLe]
    | cons y ys =>
      by_cases h1 : x.toNat < y.toNat
      · simp [charListLe, h1]
      · by_cases h2 : y.toNat < x.toNat
        · simp [charListLe, h1, h2]
        · simpa [charListLe, h1, h2] using ih ys

theorem charListLe_trans {a b c : List Char} (h1 : charListLe a b)
    (h2 : charListLe b c) : charListLe a c := by
  induction a generalizing b c with
  | nil => simp [charListLe]
  | cons x xs ih =>
    cases b with
    | nil => simp [charListLe] at h1
    | cons y ys =>
      cases c with
      | nil => simp [charListLe] at h2
      | cons z zs =>
        simp only [charListLe] at h1 h2 ⊢
        by_cases hxy : x.toNat < y.toNat
        · by_cases hyz : y.toNat < z.toNat
          · simp [Nat.lt_trans hxy hyz]
          · by_cases hzy : z.toNat < y.toNat
            · simp [hyz, hzy] at h2
            · have hyz2 : y.toNat = z.toNat := Nat.le_antisymm (Nat.le_of_not_lt hzy) (Nat.le_of_not_lt hyz)
              simp [hyz2 ▸ hxy]
        · by_cases hyx : y.toNat < x.toNat
          · simp [hxy, hyx] at h1
          · have hxy2 : x.toNat = y.toNat := Nat.le_antisymm (Nat.le_of_not_lt hyx) (Nat.le_of_not_lt hxy)
            rw [if_neg hxy, if_neg hyx] at h1
            by_cases hyz : y.toNat < z.toNat
            · simp [hxy2 ▸ hyz]
            · by_cases hzy : z.toNat < y.toNat
              · simp [hyz, hzy] at h2
              · rw [if_neg hyz, if_neg hzy] at h2
                rw [if_neg (by omega), if_neg (by omega)]
                exact ih h1 h2

theorem charListLe_antisymm {a b : List Char} (h1 : charListLe a b)
    (h2 : charListLe b a) : a = b := by
  induction a generalizing b with
  | nil =>
    cases b with
    | nil => rfl
    | cons y ys => simp [charListLe] at h2
  | cons x xs ih =>
    cases b with
    | nil => simp [charListLe] at h1
    | cons y ys =>
      simp only [charListLe] at h1 h2
      by_cases hxy : x.toNat < y.toNat
      · rw [if_neg (show ¬y.toNat < x.toNat by omega), if_pos hxy] at h2
        exact absurd h2 (by simp)
      · by_cases hyx : y.toNat < x.toNat
        · simp [hxy, hyx] at h1
        · rw [if_neg hxy, if_neg hyx] at h1
          rw [if_neg hyx, if_neg hxy] at h2
          have hv : x.toNat = y.toNat := Nat.le_antisymm (Nat.le_of_not_lt hyx) (Nat.le_of_not_lt hxy)
          have hc : x = y := Char.ext (UInt32.ext hv)
          rw [hc, ih h1 h2]

instance : IsTotal String strLe :=
  ⟨fun a b => by
    unfold strLe
    rcases Bool.or_eq_true_iff.mp (charListLe_total a.toList b.toList) with h | h
    · exact Or.inl h
    · exact Or.inr h⟩

instance : IsTrans String strLe :=
  ⟨fun _ _ _ h1 h2 => charListLe_trans h1 h2⟩

instance : IsAntisymm String strLe :=
  ⟨fun a b h1 h2 =>
    String.ext (by simpa [String.toList] using charListLe_antisymm h1 h2)⟩

theorem insertionSort_congr_of_perm {l1 l2 : List String} (h : l1.Perm l2) :
    List.insertionSort strLe l1 = List.insertionSort strLe l2 := by
  refine List.eq_of_perm_of_sorted ?_ (List.sorted_insertionSort _ _)
    (List.sorted_insertionSort _ _)
  exact ((List.perm_insertionSort _ l1).trans h).trans (List.perm_insertionSort _ l2).symm

theorem getVal_cons (k0 : String) (w : CVal) (d : CDict) (k : String) :
    getVal ((k0, w) :: d) k = if k0 = k then some w else getVal d k := by
  by_cases h : k0 = k <;> simp [getVal, List.find?_cons, h]

theorem getVal_isSome_iff_mem_keys (d : CDict) (k : String) :
    (getVal d k).isSome ↔ k ∈ d.map Prod.fst := by
  induction d with
  | nil => simp [getVal]
  | cons a rest ih =>
    rcases a with ⟨k', v'⟩
    rw [getVal_cons]
    by_cases hk : k' = k
    · simp [hk]
    · simp [hk, ih, Ne.symm hk]

theorem getVal_eq_some_iff {d : CDict} (hnd : (d.map Prod.fst).Nodup) (k : String)
    (v : CVal) : getVal d k = some v ↔ (k, v) ∈ d := by
  induction d with
  | nil => simp [getVal]
  | cons a rest ih =>
    rcases a with ⟨k', v'⟩
    simp only [List.map_cons, List.nodup_cons] at hnd
    by_cases hk : k' = k
    · subst hk
      rw [getVal_cons, if_pos rfl]
      simp only [List.mem_cons, Option.some_inj]
      constructor
      · rintro rfl
        exact Or.inl rfl
      · rintro (he | hm)
        · injection he with h1 h2
          exact h2.symm
        · exact absurd (List.mem_map_of_mem Prod.fst hm) hnd.1
    · rw [getVal_cons, if_neg hk, ih hnd.2]
      simp only [List.mem_cons]
      constructor
      · exact Or.inr
      · rintro (he | hm)
        · exact absurd (congrArg Prod.fst he).symm hk
        · exact hm

theorem dumpDict_ext (d1 d2 : CDict) (h1 : (d1.map Prod.fst).Nodup)
    (h2 : (d2.map Prod.fst).Nodup) (h : ∀ k, getVal d1 k = getVal d2 k) :
    dumpDict d1 = dumpDict d2 := by
  have hkeys : (d1.map Prod.fst).Perm (d2.map Prod.fst) := by
    rw [List.perm_ext_iff_of_nodup h1 h2]
    intro k
    rw [← getVal_isSome_iff_mem_keys, ← getVal_isSome_iff_mem_keys, h k]
  have hsort := insertionSort_congr_of_perm hkeys
  have hfun : (fun k => quoteStr k ++ ": " ++ dumpVal ((getVal d1 k).getD (.s ""))) =
      (fun k => quoteStr k ++ ": " ++ dumpVal ((getVal d2 k).getD (.s ""))) :=
    funext fun k => by rw [h k]
  simp only [dumpDict, hsort, hfun]

theorem canonSubset_keys (d : CDict) :
    (canonSubset d).map Prod.fst = (tool_constraint_subset d).map Prod.fst := by
  simp [canonSubset, List.map_map, Function.comp]

theorem canonSubset_keys_nodup {d : CDict} (h : (d.map Prod.fst).Nodup) :
    ((canonSubset d).map Prod.fst).Nodup := by
  rw [canonSubset_keys]
  exact List.Nodup.sublist (List.Sublist.map Prod.fst (List.filter_sublist d)) h

theorem canonSubset_cons (k' : String) (v' : CVal) (d : CDict) :
    canonSubset ((k', v') :: d) =
      if allowKeys.contains k' then (k', canonEntry k' v') :: canonSubset d
      else canonSubset d := by
  by_cases h : allowKeys.contains k'
  · have h' : k' ∈ allowKeys := by simpa using h
    simp [canonSubset, tool_constraint_subset, List.filter_cons, h, h']
  · have h' : ¬k' ∈ allowKeys := by simpa using h
    simp [canonSubset, tool_constraint_subset, List.filter_cons, h, h']

theorem getVal_canonSubset (d : CDict) (k : String) :
    getVal (canonSubset d) k =
      if allowKeys.contains k then (getVal d k).map (canonEntry k) else none := by
  induction d with
  | nil =>
    by_cases hc : allowKeys.contains k <;>
      simp [canonSubset, tool_constraint_subset, getVal, hc]
  | cons a rest ih =>
    rcases a with ⟨k', v'⟩
    rw [canonSubset_cons]
    by_cases hmem : allowKeys.contains k'
    · rw [if_pos hmem, getVal_cons]
      by_cases hk : k' = k
      · subst hk
        rw [if_pos rfl, if_pos hmem, getVal_cons, if_pos rfl]
        rfl
      · rw [if_neg hk, ih, getVal_cons, if_neg hk]
    · rw [if_neg hmem, ih]
      by_cases hk : k' = k
      · subst hk
        rw [if_neg hmem, if_neg hmem]
      · rw [getVal_cons, if_neg hk]

theorem tool_constraints_key_ext_canon (d1 d2 : CDict)
    (h1 : (d1.map Prod.fst).Nodup) (h2 : (d2.map Prod.fst).Nodup)
    (h : ∀ k, allowKeys.contains k →
      (getVal d1 k).map (canonEntry k) = (getVal d2 k).map (canonEntry k)) :
    tool_constraints_key d1 = tool_constraints_key d2 := by
  refine dumpDict_ext _ _ (canonSubset_keys_nodup h1) (canonSubset_keys_nodup h2) ?_
  intro k
  rw [getVal_canonSubset, getVal_canonSubset]
  by_cases hc : allowKeys.contains k
  · rw [if_pos hc, if_pos hc]
    exact h k hc
  · rw [if_neg hc, if_neg hc]

theorem getVal_eq_of_perm {d1 d2 : CDict} (h1 : (d1.map Prod.fst).Nodup)
    (hperm : d1.Perm d2) (k : String) : getVal d1 k = getVal d2 k := by
  have h2 : (d2.map Prod.fst).Nodup := ((hperm.map Prod.fst).nodup_iff).mp h1
  cases hv : getVal d2 k with
  | some v =>
    exact (getVal_eq_some_iff h1 k v).mpr
      (hperm.mem_iff.mpr ((getVal_eq_some_iff h2 k v).mp hv))
  | none =>
    have hnm : ¬k ∈ d2.map Prod.fst := by
      rw [← getVal_isSome_iff_mem_keys, hv]
      simp
    have hnm1 : ¬k ∈ d1.map Prod.fst := fun hm =>
      hnm (((hperm.map Prod.fst).mem_iff).mp hm)
    have hns : ¬(getVal d1 k).isSome := by
      rw [getVal_isSome_iff_mem_keys]
      exact hnm1
    rw [Option.not_isSome_iff_eq_none.mp hns]

/-- C5: the fingerprint `_tool_constraints_key` (i) returns equal strings
on constraint dictionaries that agree on every tool-relevant allowlisted
key (so fields outside the allowlist never affect it), (ii) is invariant
under reordering of the amenities list, and (iii) is invariant under
dictionary key order; being a pure function, it is in addition
deterministic. -/
theorem tool_constraints_key_stable :
    (∀ d1 d2 : CDict, (d1.map Prod.fst).Nodup → (d2.map Prod.fst).Nodup →
      (∀ k ∈ allowKeys, getVal d1 k = getVal d2 k) →
      tool_constraints_key d1 = tool_constraints_key d2) ∧
    (∀ (d : CDict) (vs vs' : List String),
      ((("amenities", CVal.strList vs) :: d).map Prod.fst).Nodup → vs.Perm vs' →
      tool_constraints_key (("amenities", CVal.strList vs) :: d) =
        tool_constraints_key (("amenities", CVal.strList vs') :: d)) ∧
    (∀ d1 d2 : CDict, (d1.map Prod.fst).Nodup → d1.Perm d2 →
      tool_constraints_key d1 = tool_constraints_key d2) := by
  refine ⟨?_, ?_, ?_⟩
  · intro d1 d2 h1 h2 h
    refine tool_constraints_key_ext_canon d1 d2 h1 h2 ?_
    intro k hk
    rw [h k (by simpa using hk)]
  · intro d vs vs' hnd hperm
    refine tool_constraints_key_ext_canon _ _ hnd (by simpa using hnd) ?_
    intro k hk
    by_cases hk2 : k = "amenities"
    · subst hk2
      rw [getVal_cons, if_pos rfl, getVal_cons, if_pos rfl]
      simp only [Option.map_some']
      have hcanon : ∀ l : List String, canonEntry "amenities" (.strList l) =
          .strList (List.insertionSort strLe l) := fun l => rfl
      rw [hcanon, hcanon, insertionSort_congr_of_perm hperm]
    · have hne : ¬("amenities" = k) := fun h => hk2 h.symm
      rw [getVal_cons, if_neg hne, getVal_cons, if_neg hne]
  · intro d1 d2 h1 hperm
    have h2 : (d2.map Prod.fst).Nodup := ((hperm.map Prod.fst).nodup_iff).mp h1
    refine tool_constraints_key_ext_canon d1 d2 h1 h2 ?_
    intro k _
    rw [getVal_eq_of_perm h1 hperm k]

theorem tool_constraints_key_stable_witness :
    (tool_constraints_key [("city", CVal.s "Austin"), ("note", CVal.s "x")] =
      tool_constraints_key [("city", CVal.s "Austin"), ("note", CVal.s "y")]) ∧
    (tool_constraints_key
        [("amenities", CVal.strList ["pool", "wifi"]), ("city", CVal.s "Austin")] =
      tool_constraints_key
        [("amenities", CVal.strList ["wifi", "pool"]), ("city", CVal.s "Austin")]) ∧
    (tool_constraints_key [("city", CVal.s "Austin"), ("adults", CVal.i 2)] =
      tool_constraints_key [("adults", CVal.i 2), ("city", CVal.s "Austin")]) :=
  ⟨tool_constraints_key_stable.1 _ _ (by decide) (by decide) (by decide),
   tool_constraints_key_stable.2.1 _ _ _ (by decide) (by decide),
   tool_constraints_key_stable.2.2 _ _ (by decide) (by decide)⟩


example :
    (runTurn {} happyOracle 10 { constraints := sampleConstraints }).2 =
      [.search_candidates, .get_offers, .rank_offers] := by decide

example :
    (runTurn {} happyOracle 10 { constraints := sampleConstraints }).1.agent_state =
      "WAIT_FOR_SELECTION" := by decide

/-- C3: `_llm_decide` runs the cache-coherence check on every pass
through the decision node, before the action choice (it factors as
resolution, then invalidation, then choice), and whenever a stored
fingerprint is present and differs from the fingerprint of the current
merged constraints, invalidation empties the cached candidates, offers,
ranked offers and recommended offers and nulls the stored fingerprint. -/
theorem cache_invalidation_before_every_decision :
    (∀ (d : DecideOracle) (s : GState),
      llmDecide d s =
        (let r := resolvePhase d s
         if r.1.end_turn then r.1 else chooseAction d r.2 (invalidatePhase r.1))) ∧
    (∀ (s : GState) (k : String), s.tool_constraints_key = some (some k) →
      k ≠ "" → k ≠ fingerprint s.constraints →
      invalidatePhase s = clearToolCache s ∧
      (invalidatePhase s).candidates = [] ∧
      (invalidatePhase s).offers = [] ∧
      (invalidatePhase s).ranked_offers = [] ∧
      (invalidatePhase s).recommended_offers = [] ∧
      (invalidatePhase s).tool_constraints_key = some none) := by
  constructor
  · intro d s
    rfl
  · intro s k hk hne hnf
    have hinv : invalidatePhase s = clearToolCache s := by
      simp [invalidatePhase, hk, hne, hnf]
    refine ⟨hinv, ?_, ?_, ?_, ?_, ?_⟩ <;> rw [hinv] <;> rfl

theorem extractStage_counter (d : DecideOracle) (s : GState) :
    (extractStage d s).1.tool_calls_this_turn = s.tool_calls_this_turn := by
  unfold extractStage
  repeat' split
  all_goals rfl

theorem dateStage_counter (d : DecideOracle) (s : GState) :
    (dateStage d s).tool_calls_this_turn = s.tool_calls_this_turn := by
  unfold dateStage
  repeat' split
  all_goals rfl

theorem cityStage_counter (d : DecideOracle) (s : GState) :
    (cityStage d s).tool_calls_this_turn = s.tool_calls_this_turn := by
  unfold cityStage
  repeat' split
  all_goals rfl

theorem occupancyStage_counter (d : DecideOracle) (s : GState) :
    (occupancyStage d s).tool_calls_this_turn = s.tool_calls_this_turn := by
  unfold occupancyStage
  repeat' split
  all_goals rfl

theorem amenitiesStage_counter (d : DecideOracle) (s : GState) :
    (amenitiesStage d s).tool_calls_this_turn = s.tool_calls_this_turn := by
  unfold amenitiesStage
  dsimp only
  repeat' split
  all_goals rfl

theorem nonDateStage_counter (d : DecideOracle) (s : GState) :
    (nonDateStage d s).tool_calls_this_turn = s.tool_calls_this_turn := by
  unfold nonDateStage
  dsimp only
  repeat' split
  all_goals simp [amenitiesStage_counter, occupancyStage_counter, cityStage_counter]

theorem budgetStage_counter (d : DecideOracle) (s : GState) :
    (budgetStage d s).tool_calls_this_turn = s.tool_calls_this_turn := by
  unfold budgetStage
  repeat' split
  all_goals rfl

theorem hardFiltersStage_counter (d : DecideOracle) (s : GState) :
    (hardFiltersStage d s).tool_calls_this_turn = s.tool_calls_this_turn := by
  unfold hardFiltersStage
  repeat' split
  all_goals rfl

theorem resolvePhase_counter (d : DecideOracle) (s : GState) :
    (resolvePhase d s).1.tool_calls_this_turn = s.tool_calls_this_turn := by
  unfold resolvePhase
  dsimp only
  repeat' split
  all_goals
    simp [hardFiltersStage_counter, budgetStage_counter, nonDateStage_counter,
      dateStage_counter, extractStage_counter]

theorem invalidatePhase_counter (s : GState) :
    (invalidatePhase s).tool_calls_this_turn = s.tool_calls_this_turn := by
  unfold invalidatePhase clearToolCache
  dsimp only
  repeat' split
  all_goals rfl

theorem decideClarifyExit_counter (a : RespondAction) (p : LCon) (s : GState) :
    (decideClarifyExit a p s).tool_calls_this_turn = s.tool_calls_this_turn := by
  unfold decideClarifyExit
  dsimp only
  repeat' split
  all_goals rfl

theorem decideActionStep_counter (d : DecideOracle) (extId : Option String)
    (s : GState) :
    (decideActionStep d extId s).tool_calls_this_turn = s.tool_calls_this_turn := by
  unfold decideActionStep
  dsimp only
  repeat' split
  all_goals simp [decideClarifyExit_counter]

theorem chooseAction_counter (d : DecideOracle) (extId : Option String) (s : GState) :
    (chooseAction d extId s).tool_calls_this_turn = s.tool_calls_this_turn := by
  unfold chooseAction
  repeat' split
  all_goals simp [decideActionStep_counter]

theorem llmDecide_counter (d : DecideOracle) (s : GState) :
    (llmDecide d s).tool_calls_this_turn = s.tool_calls_this_turn := by
  unfold llmDecide decidePhase
  dsimp only
  split
  · exact resolvePhase_counter d s
  · rw [chooseAction_counter, invalidatePhase_counter, resolvePhase_counter]

theorem callToolStep_budget (cfg : AgentSettings) (o : Oracle) (n : Nat) (s : GState) :
    (callToolStep cfg o n s).2.length +
        (cfg.max_tool_calls_per_turn - (callToolStep cfg o n s).1.tool_calls_this_turn) ≤
      cfg.max_tool_calls_per_turn - s.tool_calls_this_turn := by
  unfold callToolStep callSearch callGetOffers callRank
  dsimp only
  repeat' split
  all_goals simp only [List.length_nil, List.length_cons]
  all_goals omega

theorem turnLoop_budget (cfg : AgentSettings) (o : Oracle) :
    ∀ (fuel dIdx nInv : Nat) (s : GState),
      (turnLoop cfg o fuel dIdx nInv s).2.length ≤
        cfg.max_tool_calls_per_turn - s.tool_calls_this_turn := by
  intro fuel
  induction fuel with
  | zero =>
    intro dIdx nInv s
    simp [turnLoop]
  | succ m ih =>
    intro dIdx nInv s
    have hc : (llmDecide (o.decide dIdx) s).tool_calls_this_turn = s.tool_calls_this_turn :=
      llmDecide_counter _ _
    have hb := callToolStep_budget cfg o nInv (llmDecide (o.decide dIdx) s)
    unfold turnLoop
    dsimp only
    split
    · simp
    · simp
    · simp
    · split
      · dsimp only
        omega
      · have hr := ih (dIdx + 1)
          ((nInv + (callToolStep cfg o nInv (llmDecide (o.decide dIdx) s)).2.length))
          ((callToolStep cfg o nInv (llmDecide (o.decide dIdx) s)).1)
        dsimp only
        rw [List.length_append]
        omega

/-- C4: the per-turn tool-call budget is enforced: once the counter has
reached `max_tool_calls_per_turn`, a proposed tool call is replaced by
the terminal generic guardrail message and no tool is invoked (the
routing then terminates the turn through RESPOND); consequently a turn
started with a fresh counter never makes more than the configured number
of tool-client invocations. -/
theorem tool_call_budget_enforced :
    (∀ (cfg : AgentSettings) (o : Oracle) (n : Nat) (s : GState) (a : CallToolAction),
      s.llm_action = some (.call_tool a) →
      s.tool_calls_this_turn ≥ cfg.max_tool_calls_per_turn →
      callToolStep cfg o n s =
        ({ s with
            agent_state := "CALL_TOOL",
            llm_action := some (.respond
              { kind := .generic,
                message := some "Tool call limit reached for this turn." }) }, []) ∧
      route_after_call_tool (callToolStep cfg o n s).1 = .RESPOND) ∧
    (∀ (cfg : AgentSettings) (o : Oracle) (fuel : Nat) (s : GState),
      (runTurn cfg o fuel s).2.length ≤ cfg.max_tool_calls_per_turn) := by
  constructor
  · intro cfg o n s a ha hge
    have hstep : callToolStep cfg o n s =
        ({ s with
            agent_state := "CALL_TOOL",
            llm_action := some (.respond
              { kind := .generic,
                message := some "Tool call limit reached for this turn." }) }, []) := by
      unfold callToolStep
      dsimp only
      rw [ha]
      dsimp only
      rw [if_pos hge]
    refine ⟨hstep, ?_⟩
    rw [hstep]
    rfl
  · intro cfg o fuel s
    have h := turnLoop_budget cfg o fuel 0 0 (resetPerTurnState s)
    have hz : (resetPerTurnState s).tool_calls_this_turn = 0 := rfl
    rw [hz] at h
    simpa [runTurn] using h

theorem tool_call_budget_witness :
    (callToolStep {} happyOracle 0
        { constraints := sampleConstraints,
          llm_action := some (.call_tool { tool_name := .search_candidates }),
          tool_calls_this_turn := 8 } =
      ({ constraints := sampleConstraints,
         llm_action := some (.respond
           { kind := .generic,
             message := some "Tool call limit reached for this turn." }),
         tool_calls_this_turn := 8,
         agent_state := "CALL_TOOL" }, [])) ∧
    (runTurn {} happyOracle 10 { constraints := sampleConstraints }).2.length ≤ 8 := by
  constructor
  · exact (tool_call_budget_enforced.1 {} happyOracle 0 _ _ rfl (by decide)).1
  · exact tool_call_budget_enforced.2 {} happyOracle 10 _

theorem cache_invalidation_witness :
    invalidatePhase staleCacheState = clearToolCache staleCacheState ∧
    (invalidatePhase staleCacheState).candidates = [] ∧
    (invalidatePhase staleCacheState).tool_constraints_key = some none :=
  ⟨(cache_invalidation_before_every_decision.2 staleCacheState "stale" rfl
      (by decide) (by decide)).1,
   (cache_invalidation_before_every_decision.2 staleCacheState "stale" rfl
      (by decide) (by decide)).2.1,
   (cache_invalidation_before_every_decision.2 staleCacheState "stale" rfl
      (by decide) (by decide)).2.2.2.2.2⟩

/-- C7 counterexample: with empty constraints (all required fields
missing) and a proposed `rank_offers` call, the turn does not end with a
clarify response enumerating the missing required fields: no tool is
invoked, but the turn ends with the generic message
"No offers available to rank." and terminal state "RESPOND". -/
theorem incomplete_rank_proposal_counterexample :
    (runTurn {} rankProposalOracle 5 {}).2 = [] ∧
    (runTurn {} rankProposalOracle 5 {}).1.llm_action =
      some (.respond
        { kind := .generic, message := some "No offers available to rank." }) ∧
    (runTurn {} rankProposalOracle 5 {}).1.agent_state = "RESPOND" ∧
    (runTurn {} rankProposalOracle 5 {}).1.agent_state ≠ "COLLECT_CONSTRAINTS" := by
  refine ⟨by decide, by decide, by decide, by decide⟩

/-- C7 (amended): a `search_candidates` proposal under incomplete
constraints is replaced by a clarify respond action whose message is the
fixed question template over the missing required fields, without
invoking the tool, and the turn then routes to the terminal RESPOND node;
a `get_offers` proposal is likewise replaced when there are no
priced-candidate ids or dates are missing; a `rank_offers` proposal is
not completeness-checked — with no cached offers it produces a generic
no-offers response, also without invoking the tool. -/
theorem incomplete_constraints_clarify_override :
    (∀ (cfg : AgentSettings) (o : Oracle) (n : Nat) (s : GState) (a : CallToolAction),
      s.llm_action = some (.call_tool a) → a.tool_name = .search_candidates →
      s.tool_calls_this_turn < cfg.max_tool_calls_per_turn →
      s.constraints.is_complete = false →
      callToolStep cfg o n s =
        ({ s with
            agent_state := "CALL_TOOL",
            tool_calls_this_turn := s.tool_calls_this_turn + 1,
            llm_action := some (.respond
              { kind := .clarify,
                message := some (clarify_message
                  (missing_required_fields s.constraints) s.constraints) }) }, []) ∧
      route_after_call_tool (callToolStep cfg o n s).1 = .RESPOND) ∧
    (∀ (cfg : AgentSettings) (o : Oracle) (n : Nat) (s : GState) (a : CallToolAction),
      s.llm_action = some (.call_tool a) → a.tool_name = .get_offers →
      s.tool_calls_this_turn < cfg.max_tool_calls_per_turn →
      (((s.candidates.take cfg.max_hotels_priced_per_turn).map Candidate.hotel_id).isEmpty ||
        !s.constraints.check_in.isSome || !s.constraints.check_out.isSome) = true →
      callToolStep cfg o n s =
        ({ s with
            agent_state := "CALL_TOOL",
            tool_calls_this_turn := s.tool_calls_this_turn + 1,
            llm_action := some (.respond
              { kind := .clarify,
                message := some (clarify_message
                  (missing_required_fields s.constraints) s.constraints) }) }, []) ∧
      route_after_call_tool (callToolStep cfg o n s).1 = .RESPOND) ∧
    (∀ (cfg : AgentSettings) (o : Oracle) (n : Nat) (s : GState) (a : CallToolAction),
      s.llm_action = some (.call_tool a) → a.tool_name = .rank_offers →
      s.tool_calls_this_turn < cfg.max_tool_calls_per_turn →
      s.offers = [] →
      callToolStep cfg o n s =
        ({ s with
            agent_state := "CALL_TOOL",
            tool_calls_this_turn := s.tool_calls_this_turn + 1,
            llm_action := some (.respond
              { kind := .generic,
                message := some "No offers available to rank." }) }, []) ∧
      route_after_call_tool (callToolStep cfg o n s).1 = .RESPOND) := by
  refine ⟨?_, ?_, ?_⟩
  · intro cfg o n s a ha hname hlt hinc
    have hstep : callToolStep cfg o n s =
        ({ s with
            agent_state := "CALL_TOOL",
            tool_calls_this_turn := s.tool_calls_this_turn + 1,
            llm_action := some (.respond
              { kind := .clarify,
                message := some (clarify_message
                  (missing_required_fields s.constraints) s.constraints) }) }, []) := by
      unfold callToolStep
      dsimp only
      rw [ha]
      dsimp only
      rw [if_neg (Nat.not_le.mpr hlt), hname]
      unfold callSearch
      dsimp only
      rw [hinc]
      rfl
    exact ⟨hstep, by rw [hstep]; rfl⟩
  · intro cfg o n s a ha hname hlt hdeg
    have hstep : callToolStep cfg o n s =
        ({ s with
            agent_state := "CALL_TOOL",
            tool_calls_this_turn := s.tool_calls_this_turn + 1,
            llm_action := some (.respond
              { kind := .clarify,
                message := some (clarify_message
                  (missing_required_fields s.constraints) s.constraints) }) }, []) := by
      unfold callToolStep
      dsimp only
      rw [ha]
      dsimp only
      rw [if_neg (Nat.not_le.mpr hlt), hname]
      unfold callGetOffers
      dsimp only
      rw [if_pos (by exact hdeg)]
    exact ⟨hstep, by rw [hstep]; rfl⟩
  · intro cfg o n s a ha hname hlt hoff
    have hstep : callToolStep cfg o n s =
        ({ s with
            agent_state := "CALL_TOOL",
            tool_calls_this_turn := s.tool_calls_this_turn + 1,
            llm_action := some (.respond
              { kind := .generic,
                message := some "No offers available to rank." }) }, []) := by
      unfold callToolStep
      dsimp only
      rw [ha]
      dsimp only
      rw [if_neg (Nat.not_le.mpr hlt), hname]
      unfold callRank
      dsimp only
      rw [hoff]
      rfl
    exact ⟨hstep, by rw [hstep]; rfl⟩

theorem incomplete_constraints_clarify_witness :
    callToolStep {} happyOracle 0
        { constraints := { city := some "Austin" },
          llm_action := some (.call_tool { tool_name := .search_candidates }) } =
      ({ constraints := { city := some "Austin" },
         agent_state := "CALL_TOOL",
         tool_calls_this_turn := 1,
         llm_action := some (.respond
           { kind := .clarify,
             message := some "What dates should I use for Austin? (YYYY-MM-DD to YYYY-MM-DD)" }) }, []) := by
  have h := (incomplete_constraints_clarify_override.1 {} happyOracle 0
    { constraints := { city := some "Austin" },
      llm_action := some (.call_tool { tool_name := .search_candidates }) }
    { tool_name := .search_candidates } rfl rfl (by decide) (by decide)).1
  rw [h]
  decide

theorem amenitiesStage_end_turn (d : DecideOracle) (s : GState) :
    (amenitiesStage d s).end_turn = s.end_turn := by
  unfold amenitiesStage
  dsimp only
  repeat' split
  all_goals rfl

theorem budgetStage_end_turn (d : DecideOracle) (s : GState) :
    (budgetStage d s).end_turn = s.end_turn := by
  unfold budgetStage
  repeat' split
  all_goals rfl

theorem hardFiltersStage_end_turn (d : DecideOracle) (s : GState) :
    (hardFiltersStage d s).end_turn = s.end_turn := by
  unfold hardFiltersStage
  repeat' split
  all_goals rfl

/-- C8 counterexample: the city resolver returns a needs-clarification
result with its own question "Which Austin?", yet the surfaced assistant
message is the deterministic template question, not that question
verbatim. -/
theorem city_question_not_verbatim_counterexample :
    (llmDecide cityClarifyOracle {}).end_turn = true ∧
    (llmDecide cityClarifyOracle {}).assistant_message =
      "Which city should I search in?" ∧
    (llmDecide cityClarifyOracle {}).assistant_message ≠ "Which Austin?" := by
  refine ⟨by decide, by decide, by decide⟩

/-- C8 (amended): when a blocking resolver (CITY, OCCUPANCY, DATE)
returns needs-clarification the turn ends immediately — no later resolver
stage, decision step or tool call runs — but the surfaced question is the
resolver's own only for DATE (stripped of surrounding whitespace, with a
fixed default when blank); CITY and OCCUPANCY surface the deterministic
clarify template instead.  The AMENITIES, BUDGET and HARD-FILTER-PATCH
resolvers never end the turn, and on unresolvable input (or an ignored
amenities question) leave the state unchanged. -/
theorem blocking_resolvers_end_turn :
    (∀ (d : DecideOracle) (s : GState),
      (resolvePhase d s).1.end_turn = true →
      llmDecide d s = (resolvePhase d s).1 ∧
      route_after_llm_decide (llmDecide d s) = .END) ∧
    (∀ (d : DecideOracle) (s : GState) (r : LLMCityResolveRes),
      strTruthy s.constraints.city = false → d.cityResolve = some r →
      r.needs_clarification = true →
      cityStage d s = { s with
        assistant_message := clarify_message ["city"] s.constraints,
        agent_state := "COLLECT_CONSTRAINTS",
        end_turn := true } ∧
      nonDateStage d s = cityStage d s) ∧
    (∀ (d : DecideOracle) (s : GState) (r : LLMOccupancyResolveRes),
      (!(natTruthy s.constraints.adults) || !(natTruthy s.constraints.rooms)) = true →
      d.occupancyResolve = some r → r.needs_clarification = true →
      occupancyStage d s = { s with
        assistant_message := clarify_message
          ((if !(natTruthy s.constraints.adults) then ["adults"] else []) ++
           (if !(natTruthy s.constraints.rooms) then ["rooms"] else [])) s.constraints,
        agent_state := "COLLECT_CONSTRAINTS",
        end_turn := true }) ∧
    (∀ (d : DecideOracle) (s : GState) (r : LLMDateResolveRes),
      (missing_required_fields s.constraints).contains "dates" = true →
      s.tool_calls_this_turn = 0 →
      d.dateResolve = some r → r.needs_clarification = true →
      dateStage d s = { s with
        assistant_message :=
          (if pyStrip (r.question.getD "") == "" then DATE_DEFAULT_QUESTION
           else pyStrip (r.question.getD "")),
        agent_state := "COLLECT_CONSTRAINTS",
        end_turn := true }) ∧
    (∀ (d : DecideOracle) (s : GState),
      (amenitiesStage d s).end_turn = s.end_turn ∧
      (budgetStage d s).end_turn = s.end_turn ∧
      (hardFiltersStage d s).end_turn = s.end_turn) ∧
    (∀ (d : DecideOracle) (s : GState),
      (d.amenitiesResolve = none → amenitiesStage d s = s) ∧
      (∀ r, d.amenitiesResolve = some r → r.needs_clarification = true →
        amenitiesStage d s = s) ∧
      (d.budgetResolve = none → budgetStage d s = s) ∧
      (d.hardFiltersPatch = none → hardFiltersStage d s = s)) := by
  refine ⟨?_, ?_, ?_, ?_, ?_, ?_⟩
  · intro d s h
    have hd : llmDecide d s = (resolvePhase d s).1 := by
      unfold llmDecide
      dsimp only
      rw [if_pos h]
    exact ⟨hd, by rw [hd]; simp [route_after_llm_decide, h]⟩
  · intro d s r hcity hr hneed
    have hc : cityStage d s = { s with
        assistant_message := clarify_message ["city"] s.constraints,
        agent_state := "COLLECT_CONSTRAINTS",
        end_turn := true } := by
      unfold cityStage
      rw [hcity, hr]
      simp [hneed]
    refine ⟨hc, ?_⟩
    unfold nonDateStage
    dsimp only
    rw [hc]
    rfl
  · intro d s r hocc hr hneed
    unfold occupancyStage
    rw [hocc, hr]
    simp [hneed]
  · intro d s r hdates hzero hr hneed
    unfold dateStage
    rw [hdates, hzero, hr]
    simp [hneed]
  · intro d s
    exact ⟨amenitiesStage_end_turn d s, budgetStage_end_turn d s,
      hardFiltersStage_end_turn d s⟩
  · intro d s
    refine ⟨?_, ?_, ?_, ?_⟩
    · intro h
      simp [amenitiesStage, h]
    · intro r hr hneed
      simp [amenitiesStage, hr, hneed]
    · intro h
      simp [budgetStage, h]
    · intro h
      simp [hardFiltersStage, h]

theorem blocking_resolvers_witness :
    cityStage cityClarifyOracle {} =
      { assistant_message := "Which city should I search in?",
        agent_state := "COLLECT_CONSTRAINTS",
        end_turn := true } ∧
    budgetStage cityClarifyOracle staleCacheState = staleCacheState := by
  constructor
  · have h := (blocking_resolvers_end_turn.2.1 cityClarifyOracle {}
      { needs_clarification := true, question := some "Which Austin?" }
      (by decide) rfl (by decide)).1
    rw [h]
    decide
  · exact (blocking_resolvers_end_turn.2.2.2.2.2 cityClarifyOracle staleCacheState).2.2.1 rfl

theorem invalidatePhase_end_turn (s : GState) :
    (invalidatePhase s).end_turn = s.end_turn := by
  unfold invalidatePhase clearToolCache
  dsimp only
  repeat' split
  all_goals rfl

/-- C9: when this turn's extraction yields a selected offer id and the
resolution prelude did not end the turn, the decision step transitions
directly to a confirm respond action if in-session tool-derived offer
context exists (else to the fixed re-shop clarify action), and the turn
makes no tool-client invocation in either case; the confirm response is
rendered purely from session data — the stored offer's deterministic
rendering when the id is found, a fixed not-found message otherwise. -/
theorem selection_confirm_no_repricing :
    (∀ (cfg : AgentSettings) (o : Oracle) (fuel dIdx nInv : Nat) (s : GState)
        (oid : String),
      (resolvePhase (o.decide dIdx) s).2 = some oid →
      (resolvePhase (o.decide dIdx) s).1.end_turn = false →
      (hasOfferContext (invalidatePhase (resolvePhase (o.decide dIdx) s).1) = true →
        llmDecide (o.decide dIdx) s =
          { invalidatePhase (resolvePhase (o.decide dIdx) s).1 with
            selected_offer_id := some oid,
            llm_action := some (.respond
              { kind := .confirm, message := some CONFIRM_SELECTED_MSG }) } ∧
        (turnLoop cfg o (fuel + 1) dIdx nInv s).2 = []) ∧
      (hasOfferContext (invalidatePhase (resolvePhase (o.decide dIdx) s).1) = false →
        llmDecide (o.decide dIdx) s =
          { invalidatePhase (resolvePhase (o.decide dIdx) s).1 with
            llm_action := some (.respond
              { kind := .clarify, message := some NO_OFFER_CONTEXT_MSG }) } ∧
        (turnLoop cfg o (fuel + 1) dIdx nInv s).2 = [])) ∧
    (∀ (o : Oracle) (s : GState),
      ((respondActionOf s.llm_action).kind == RespondKind.confirm ||
        s.selected_offer_id.isSome) = true →
      (∀ sel,
        find_selected_offer s.selected_offer_id s.recommended_offers s.offers
            s.candidates = some sel →
        llmRespond o s = { s with
          agent_state := "CONFIRM",
          assistant_message := render_selected_offer_message s.constraints sel }) ∧
      (find_selected_offer s.selected_offer_id s.recommended_offers s.offers
          s.candidates = none →
        llmRespond o s = { s with
          agent_state := "WAIT_FOR_SELECTION",
          assistant_message := "I couldn\x27t find that offer_id in this session. Please reply with one of the offer_id values I listed, or ask me to search again." })) := by
  constructor
  · intro cfg o fuel dIdx nInv s oid hext hend
    have hdec : llmDecide (o.decide dIdx) s =
        chooseAction (o.decide dIdx) (some oid)
          (invalidatePhase (resolvePhase (o.decide dIdx) s).1) := by
      unfold llmDecide decidePhase
      dsimp only
      rw [if_neg (by rw [hend]; simp), hext]
    constructor
    · intro hctx
      have h1 : llmDecide (o.decide dIdx) s =
          { invalidatePhase (resolvePhase (o.decide dIdx) s).1 with
            selected_offer_id := some oid,
            llm_action := some (.respond
              { kind := .confirm, message := some CONFIRM_SELECTED_MSG }) } := by
        rw [hdec]
        unfold chooseAction
        dsimp only
        rw [if_pos hctx]
      refine ⟨h1, ?_⟩
      have hroute : route_after_llm_decide (llmDecide (o.decide dIdx) s) = .RESPOND := by
        rw [h1]
        unfold route_after_llm_decide
        dsimp only
        rw [if_neg (by rw [invalidatePhase_end_turn, hend]; simp)]
      unfold turnLoop
      dsimp only
      rw [hroute]
    · intro hctx
      have h1 : llmDecide (o.decide dIdx) s =
          { invalidatePhase (resolvePhase (o.decide dIdx) s).1 with
            llm_action := some (.respond
              { kind := .clarify, message := some NO_OFFER_CONTEXT_MSG }) } := by
        rw [hdec]
        unfold chooseAction
        dsimp only
        rw [if_neg (by rw [hctx]; simp)]
      refine ⟨h1, ?_⟩
      have hroute : route_after_llm_decide (llmDecide (o.decide dIdx) s) = .RESPOND := by
        rw [h1]
        unfold route_after_llm_decide
        dsimp only
        rw [if_neg (by rw [invalidatePhase_end_turn, hend]; simp)]
      unfold turnLoop
      dsimp only
      rw [hroute]
  · intro o s hkind
    constructor
    · intro sel hsel
      unfold llmRespond
      dsimp only
      rw [if_pos hkind, hsel]
    · intro hsel
      unfold llmRespond
      dsimp only
      rw [if_pos hkind, hsel]

theorem selection_confirm_witness :
    (turnLoop {} selectionOracle 5 0 0 selState).2 = [] ∧
    llmRespond selectionOracle
        { selState with
          selected_offer_id := some "o1",
          llm_action := some (.respond
            { kind := .confirm, message := some CONFIRM_SELECTED_MSG }) } =
      { selState with
        selected_offer_id := some "o1",
        llm_action := some (.respond
          { kind := .confirm, message := some CONFIRM_SELECTED_MSG }),
        agent_state := "CONFIRM",
        assistant_message :=
          render_selected_offer_message sampleConstraints selCard } := by
  constructor
  · exact ((selection_confirm_no_repricing.1 {} selectionOracle 4 0 0 selState "o1"
      (by decide) (by decide)).1 (by decide)).2
  · exact (selection_confirm_no_repricing.2 selectionOracle _ (by decide)).1
      selCard (by decide)

theorem candLookup_spec {cands : List Candidate} {hid : String} {cand : Candidate}
    (h : candLookup cands hid = some cand) : cand ∈ cands ∧ cand.hotel_id = hid := by
  unfold candLookup at h
  have h1 := List.mem_of_find?_eq_some h
  have h2 := List.find?_some h
  exact ⟨List.mem_reverse.mp h1, by simpa using h2⟩

/-- C10: in an explain response the displayed offer cards are built by
`_build_offer_cards`: at most three, each drawn from the current ranked
offer list; whenever a minimum-star constraint is set, every displayed
card corresponds to a candidate hotel whose known star rating is at least
that minimum — offers with unknown or below-minimum ratings are filtered
out even when present in the cached ranked results; and the respond node
on the explain path displays exactly these cards. -/
theorem explain_cards_bounded_star_filtered (s : GState) :
    (build_offer_cards s).1.length ≤ 3 ∧
    (∀ c ∈ (build_offer_cards s).1, ∃ item ∈ s.ranked_offers, c.offer = item.offer) ∧
    (∀ ms, s.constraints.min_star = some ms →
      ∀ c ∈ (build_offer_cards s).1, ∃ cand ∈ s.candidates,
        cand.hotel_id = c.offer.hotel_id ∧ ∃ st, cand.star_rating = some st ∧ ms ≤ st) ∧
    (∀ (o : Oracle),
      ((respondActionOf s.llm_action).kind == RespondKind.confirm ||
        s.selected_offer_id.isSome) = false →
      s.ranked_offers.isEmpty = false →
      llmRespond o s = { s with
        recommended_offers := (build_offer_cards s).1,
        assistant_message :=
          render_top_offers_message s.constraints (build_offer_cards s).1,
        agent_state := "WAIT_FOR_SELECTION" }) := by
  refine ⟨?_, ?_, ?_, ?_⟩
  · unfold build_offer_cards
    dsimp only
    rw [List.length_map]
    exact List.length_take_le 3 _
  · intro c hc
    rcases hms : s.constraints.min_star with _ | ms
    · simp only [build_offer_cards, hms] at hc
      rw [List.mem_map] at hc
      obtain ⟨item, hitem, hfc⟩ := hc
      have hmem : item ∈ s.ranked_offers :=
        (List.take_sublist 3 _).mem hitem
      exact ⟨item, hmem, by rw [← hfc]⟩
    · simp only [build_offer_cards, hms] at hc
      rw [List.mem_map] at hc
      obtain ⟨item, hitem, hfc⟩ := hc
      have hmem : item ∈ s.ranked_offers := by
        have := (List.take_sublist 3 _).mem hitem
        exact (List.mem_filter.mp this).1
      exact ⟨item, hmem, by rw [← hfc]⟩
  · intro ms hms c hc
    simp only [build_offer_cards, hms] at hc
    rw [List.mem_map] at hc
    obtain ⟨item, hitem, hfc⟩ := hc
    have hmem := (List.take_sublist 3 _).mem hitem
    have hfilt := (List.mem_filter.mp hmem).2
    have hcoffer : c.offer = item.offer := by rw [← hfc]
    rcases hbind : (candLookup s.candidates item.offer.hotel_id).bind
        Candidate.star_rating with _ | st
    · rw [hbind] at hfilt
      simp at hfilt
    · rw [hbind] at hfilt
      obtain ⟨cand, hcl, hstar⟩ := Option.bind_eq_some.mp hbind
      obtain ⟨hcmem, hcid⟩ := candLookup_spec hcl
      refine ⟨cand, hcmem, by rw [hcid, hcoffer], st, hstar, ?_⟩
      simpa using hfilt
  · intro o hkind hranked
    unfold llmRespond
    dsimp only
    rw [if_neg (by rw [hkind]; simp)]
    rw [if_pos (by rw [hranked]; simp)]
    rw [show build_offer_cards { s with agent_state := "LLM_RESPOND" } =
      build_offer_cards s from rfl]

theorem explain_cards_witness :
    ((build_offer_cards starState).1.length ≤ 3 ∧
      ∀ c ∈ (build_offer_cards starState).1, ∃ cand ∈ starState.candidates,
        cand.hotel_id = c.offer.hotel_id ∧
          ∃ st, cand.star_rating = some st ∧ (3 : Rat) ≤ st) ∧
    llmRespond happyOracle starState =
      { starState with
        recommended_offers := (build_offer_cards starState).1,
        assistant_message := render_top_offers_message starState.constraints
          (build_offer_cards starState).1,
        agent_state := "WAIT_FOR_SELECTION" } := by
  refine ⟨⟨(explain_cards_bounded_star_filtered starState).1, ?_⟩, ?_⟩
  · intro c hc
    exact (explain_cards_bounded_star_filtered starState).2.2.1 3
      (by decide) c hc
  · exact (explain_cards_bounded_star_filtered starState).2.2.2 happyOracle
      (by decide) (by decide)

theorem callAux_congr (tn : String) (a b : Nat → Attempt) :
    ∀ (rem i r : Nat), (∀ j, i ≤ j → j < i + rem → a j = b j) →
      callAux tn a i r rem = callAux tn b i r rem := by
  intro rem
  induction rem with
  | zero => intro i r _; rfl
  | succ n ih =>
    intro i r h
    simp only [callAux]
    rw [h i le_rfl (by omega)]
    cases hb : b i with
    | ok st body =>
      dsimp only
      by_cases hst : st ≥ 400
      · rw [if_pos hst, if_pos hst]
        by_cases hrem : n = 0
        · simp [hrem]
        · have hne : (n == 0) = false := by simpa using hrem
          rw [hne]
          simp only [Bool.false_eq_true, if_false]
          exact ih (i + 1) (r + 1) (fun j h1 h2 => h j (by omega) (by omega))
      · rw [if_neg hst, if_neg hst]
    | exn m =>
      dsimp only
      by_cases hrem : n = 0
      · simp [hrem]
      · have hne : (n == 0) = false := by simpa using hrem
        rw [hne]
        simp only [Bool.false_eq_true, if_false]
        exact ih (i + 1) (r + 1) (fun j h1 h2 => h j (by omega) (by omega))

theorem callAux_all_fail (tn : String) (attempts : Nat → Attempt) :
    ∀ (rem i r : Nat), 0 < rem →
      (∀ j, i ≤ j → j < i + rem → attemptFails (attempts j)) →
      ∃ msg, callAux tn attempts i r rem = .error msg := by
  intro rem
  induction rem with
  | zero => intro i r h; omega
  | succ n ih =>
    intro i r _ h
    have hi := h i le_rfl (by omega)
    simp only [callAux]
    cases ha : attempts i with
    | ok st body =>
      dsimp only
      rw [ha] at hi
      have hst : st ≥ 400 := hi
      rw [if_pos hst]
      by_cases hrem : n = 0
      · simp [hrem]
      · have hne : (n == 0) = false := by simpa using hrem
        rw [hne]
        simp only [Bool.false_eq_true, if_false]
        exact ih (i + 1) (r + 1) (by omega) (fun j h1 h2 => h j (by omega) (by omega))
    | exn m =>
      dsimp only
      by_cases hrem : n = 0
      · simp [hrem]
      · have hne : (n == 0) = false := by simpa using hrem
        rw [hne]
        simp only [Bool.false_eq_true, if_false]
        exact ih (i + 1) (r + 1) (by omega) (fun j h1 h2 => h j (by omega) (by omega))

/-- C6 counterexample: after the retry budget is exhausted the typed
client error is raised, but the `/chat` handler does not convert it into
a turn-level failure message: the exception escapes the handler (only
`ModelConfigError` is caught), so no assistant message reaches the user. -/
theorem tool_error_no_failure_message_counterexample :
    toolClientCall {} "search_candidates" (fun _ => .ok 500 "boom") =
      .error "tool search_candidates failed: 500 boom" ∧
    chatStep (.error (.toolClient "tool search_candidates failed: 500 boom")) =
      .unhandled (.toolClient "tool search_candidates failed: 500 boom") ∧
    producesFailureMessage
      (chatStep (.error (.toolClient "tool search_candidates failed: 500 boom"))) =
      false := by
  refine ⟨rfl, rfl, rfl⟩

/-- C6 (amended): the tool client makes at most `tool_max_retries + 1`
attempts (its result depends only on those attempts), treats any HTTP
status of 400 or above and any transport exception as a retryable
failure, and raises a typed client error after exhausting the budget; the
`/chat` handler, however, catches only `ModelConfigError` — a tool-client
error escapes it unhandled, so the turn produces no assistant message and
persists nothing (the failure is never partially applied), and the
request fails at the web-framework level rather than with a turn-level
failure message. -/
theorem tool_client_retry_bound_and_unhandled_error :
    (∀ (cfg : AgentSettings) (tn : String) (a b : Nat → Attempt),
      (∀ j, j < cfg.tool_max_retries + 1 → a j = b j) →
      toolClientCall cfg tn a = toolClientCall cfg tn b) ∧
    (∀ (cfg : AgentSettings) (tn : String) (attempts : Nat → Attempt),
      (∀ j, j < cfg.tool_max_retries + 1 → attemptFails (attempts j)) →
      ∃ msg, toolClientCall cfg tn attempts = .error msg) ∧
    (∀ (m : String),
      chatStep (.error (.toolClient m)) = .unhandled (.toolClient m) ∧
      producesFailureMessage (chatStep (.error (.toolClient m))) = false) ∧
    (∀ (m : String), chatStep (.error (.modelConfig m)) = .httpException 500 m) ∧
    (∀ (out : GState), chatStep (.ok out) = .ok out.assistant_message true) := by
  refine ⟨?_, ?_, ?_, ?_, ?_⟩
  · intro cfg tn a b h
    exact callAux_congr tn a b (cfg.tool_max_retries + 1) 0 0
      (fun j h1 h2 => h j (by omega))
  · intro cfg tn attempts h
    exact callAux_all_fail tn attempts (cfg.tool_max_retries + 1) 0 0 (by omega)
      (fun j h1 h2 => h j (by omega))
  · intro m
    exact ⟨rfl, rfl⟩
  · intro m
    rfl
  · intro out
    rfl

theorem tool_client_retry_witness :
    (toolClientCall {} "get_offers" (fun _ => .exn "timeout") =
      toolClientCall {} "get_offers"
        (fun j => if j < 3 then .exn "timeout" else .ok 200 "late")) ∧
    (∃ msg, toolClientCall {} "get_offers" (fun _ => .exn "timeout") = .error msg) := by
  constructor
  · exact tool_client_retry_bound_and_unhandled_error.1 {} "get_offers" _ _
      (fun j hj => by simp [hj])
  · exact tool_client_retry_bound_and_unhandled_error.2.1 {} "get_offers" _
      (fun j _ => by exact trivial)

theorem invalidatePhase_cases (s : GState) :
    invalidatePhase s = s ∨ invalidatePhase s = clearToolCache s := by
  unfold invalidatePhase
  dsimp only
  by_cases h1 : (hasToolCache s && s.tool_constraints_key.isNone) = true
  · rw [if_pos h1]
    right
    rfl
  · rw [if_neg h1]
    split
    · split
      · right
        rfl
      · left
        rfl
    · left
      rfl

theorem resolvePhase_skip (d : DecideOracle) (s : GState)
    (h : s.tool_calls_this_turn ≠ 0) :
    resolvePhase d s =
      ({ s with agent_state := "LLM_DECIDE", end_turn := false }, none) := by
  have hc0 : (s.tool_calls_this_turn == 0) = false := by
    simp [h]
  unfold resolvePhase extractStage dateStage
  dsimp only
  simp only [hc0, Bool.and_false, Bool.false_eq_true, if_false]

theorem decideActionStep_forces (d : DecideOracle) (s : GState) (a : AgentAction)
    (hd : d.decideAction = some a) (hupd : actionUpdate a = none)
    (hc : s.constraints.is_complete = true) (t : ToolName)
    (ht : expectedTool s = some t) :
    decideActionStep d none s =
      { s with llm_action := some (.call_tool { tool_name := t }) } := by
  unfold decideActionStep
  rw [hd]
  cases a with
  | call_tool ct =>
    rcases ct with ⟨tn, cu⟩
    simp only [actionUpdate] at hupd
    subst hupd
    dsimp only
    simp only [mergeC]
    rw [show ({ s with constraints := s.constraints } : GState) = s from rfl]
    rw [if_pos hc, ht]
    dsimp only
    by_cases htn : tn = t
    · subst htn
      simp
    · have hne : (tn != t) = true := by simp [htn]
      rw [hne]
      simp
  | respond ra =>
    rcases ra with ⟨kind, msg, cu⟩
    simp only [actionUpdate] at hupd
    subst hupd
    dsimp only
    simp only [mergeC, Option.isSome_none, Bool.and_false, Bool.false_eq_true, if_false]
    rw [if_pos hc]
    unfold expectedTool at ht
    by_cases h1 : s.candidates.isEmpty
    · rw [if_pos h1] at ht
      injection ht with ht
      subst ht
      rw [if_pos h1]
    · rw [if_neg h1] at ht
      rw [if_neg h1]
      by_cases h2 : s.offers.isEmpty
      · rw [if_pos h2] at ht
        injection ht with ht
        subst ht
        rw [if_pos h2]
      · rw [if_neg h2] at ht
        rw [if_neg h2]
        by_cases h3 : s.ranked_offers.isEmpty
        · rw [if_pos h3] at ht
          injection ht with ht
          subst ht
          rw [if_pos h3]
        · rw [if_neg h3] at ht
          cases ht

theorem llmDecide_skip_forces (d : DecideOracle) (s : GState) (a : AgentAction)
    (hcnt : s.tool_calls_this_turn ≠ 0)
    (hd : d.decideAction = some a) (hupd : actionUpdate a = none)
    (hkey : s.tool_constraints_key = some (some (fingerprint s.constraints)))
    (hc : s.constraints.is_complete = true) (t : ToolName)
    (ht : expectedTool s = some t) :
    llmDecide d s =
      { s with
        agent_state := "LLM_DECIDE",
        end_turn := false,
        llm_action := some (.call_tool { tool_name := t }) } := by
  unfold llmDecide
  rw [resolvePhase_skip d s hcnt]
  dsimp only
  rw [if_neg (by simp)]
  unfold decidePhase
  have hinv : invalidatePhase { s with agent_state := "LLM_DECIDE", end_turn := false } =
      { s with agent_state := "LLM_DECIDE", end_turn := false } := by
    unfold invalidatePhase
    dsimp only
    rw [hkey]
    simp
  rw [hinv]
  unfold chooseAction
  have hforce := decideActionStep_forces d
    { s with agent_state := "LLM_DECIDE", end_turn := false } a hd hupd hc t ht
  exact hforce

theorem callToolStep_search (cfg : AgentSettings) (o : Oracle) (n : Nat) (s : GState)
    (hact : s.llm_action = some (.call_tool { tool_name := .search_candidates }))
    (hlt : s.tool_calls_this_turn < cfg.max_tool_calls_per_turn)
    (hc : s.constraints.is_complete = true)
    (hres : o.searchResult n ≠ []) :
    callToolStep cfg o n s =
      ({ s with
          agent_state := "CALL_TOOL",
          tool_calls_this_turn := s.tool_calls_this_turn + 1,
          offers := [],
          ranked_offers := [],
          recommended_offers := [],
          reasons := [],
          tool_constraints_key := some (some (fingerprint s.constraints)),
          candidates := o.searchResult n }, [.search_candidates]) ∧
    route_after_call_tool (callToolStep cfg o n s).1 = .DECIDE := by
  have hstep : callToolStep cfg o n s =
      ({ s with
          agent_state := "CALL_TOOL",
          tool_calls_this_turn := s.tool_calls_this_turn + 1,
          offers := [],
          ranked_offers := [],
          recommended_offers := [],
          reasons := [],
          tool_constraints_key := some (some (fingerprint s.constraints)),
          candidates := o.searchResult n }, [.search_candidates]) := by
    unfold callToolStep
    dsimp only
    rw [hact]
    dsimp only
    rw [if_neg (Nat.not_le.mpr hlt)]
    unfold callSearch
    dsimp only
    rw [if_neg (by simp [hc])]
    have hne : (o.searchResult n).isEmpty = false := by
      simpa using hres
    rw [hne]
    simp
  refine ⟨hstep, ?_⟩
  rw [hstep]
  unfold route_after_call_tool
  dsimp only
  rw [hact]

theorem callToolStep_offers (cfg : AgentSettings) (o : Oracle) (n : Nat) (s : GState)
    (hact : s.llm_action = some (.call_tool { tool_name := .get_offers }))
    (hlt : s.tool_calls_this_turn < cfg.max_tool_calls_per_turn)
    (hcand : s.candidates.isEmpty = false)
    (hhotels : 1 ≤ cfg.max_hotels_priced_per_turn)
    (hci : s.constraints.check_in.isSome = true)
    (hco : s.constraints.check_out.isSome = true) :
    callToolStep cfg o n s =
      ({ s with
          agent_state := "CALL_TOOL",
          tool_calls_this_turn := s.tool_calls_this_turn + 1,
          offers := o.offersResult n }, [.get_offers]) ∧
    route_after_call_tool (callToolStep cfg o n s).1 = .DECIDE := by
  have hids : ((s.candidates.take cfg.max_hotels_priced_per_turn).map
      Candidate.hotel_id).isEmpty = false := by
    cases hcands : s.candidates with
    | nil => rw [hcands] at hcand; simp at hcand
    | cons c rest =>
      cases hm : cfg.max_hotels_priced_per_turn with
      | zero => omega
      | succ m => simp [hcands, hm]
  have hstep : callToolStep cfg o n s =
      ({ s with
          agent_state := "CALL_TOOL",
          tool_calls_this_turn := s.tool_calls_this_turn + 1,
          offers := o.offersResult n }, [.get_offers]) := by
    unfold callToolStep
    dsimp only
    rw [hact]
    dsimp only
    rw [if_neg (Nat.not_le.mpr hlt)]
    unfold callGetOffers
    dsimp only
    rw [if_neg (by
      simp [hids, hci, hco]
      exact ⟨by omega, by intro h; rw [h] at hcand; simp at hcand⟩)]
  refine ⟨hstep, ?_⟩
  rw [hstep]
  unfold route_after_call_tool
  dsimp only
  rw [hact]

theorem callToolStep_rank (cfg : AgentSettings) (o : Oracle) (n : Nat) (s : GState)
    (hact : s.llm_action = some (.call_tool { tool_name := .rank_offers }))
    (hlt : s.tool_calls_this_turn < cfg.max_tool_calls_per_turn)
    (hoff : s.offers.isEmpty = false) :
    callToolStep cfg o n s =
      ({ s with
          agent_state := "CALL_TOOL",
          tool_calls_this_turn := s.tool_calls_this_turn + 1,
          ranked_offers := (o.rankResult n).1,
          reasons := (o.rankResult n).2,
          llm_action := some (.respond
            { kind := .explain, message := some "Show top offers." }) },
        [.rank_offers]) ∧
    route_after_call_tool (callToolStep cfg o n s).1 = .RESPOND := by
  have hstep : callToolStep cfg o n s =
      ({ s with
          agent_state := "CALL_TOOL",
          tool_calls_this_turn := s.tool_calls_this_turn + 1,
          ranked_offers := (o.rankResult n).1,
          reasons := (o.rankResult n).2,
          llm_action := some (.respond
            { kind := .explain, message := some "Show top offers." }) },
        [.rank_offers]) := by
    unfold callToolStep
    dsimp only
    rw [hact]
    dsimp only
    rw [if_neg (Nat.not_le.mpr hlt)]
    unfold callRank
    dsimp only
    rw [hoff]
    simp
  refine ⟨hstep, ?_⟩
  rw [hstep]
  rfl

theorem is_complete_dates (c : LCon) (h : c.is_complete = true) :
    c.check_in.isSome = true ∧ c.check_out.isSome = true := by
  unfold LCon.is_complete at h
  simp only [Bool.and_eq_true] at h
  exact ⟨h.1.1.1.2, h.1.1.2⟩

theorem turnLoop_call_one (cfg : AgentSettings) (o : Oracle) (fuel dIdx nInv : Nat)
    (s : GState) (t : ToolName)
    (h1 : route_after_llm_decide (llmDecide (o.decide dIdx) s) = .CALL_TOOL)
    (h2 : (callToolStep cfg o nInv (llmDecide (o.decide dIdx) s)).2 = [t])
    (h3 : route_after_call_tool (callToolStep cfg o nInv (llmDecide (o.decide dIdx) s)).1 =
      .DECIDE) :
    (turnLoop cfg o (fuel + 1) dIdx nInv s).2 =
      t :: (turnLoop cfg o fuel (dIdx + 1) (nInv + 1)
        (callToolStep cfg o nInv (llmDecide (o.decide dIdx) s)).1).2 := by
  conv_lhs => unfold turnLoop
  dsimp only
  rw [h1]
  dsimp only
  rw [h3]
  dsimp only
  rw [h2]
  simp only [List.length_singleton, List.singleton_append]

theorem turnLoop_call_end (cfg : AgentSettings) (o : Oracle) (fuel dIdx nInv : Nat)
    (s : GState) (t : ToolName)
    (h1 : route_after_llm_decide (llmDecide (o.decide dIdx) s) = .CALL_TOOL)
    (h2 : (callToolStep cfg o nInv (llmDecide (o.decide dIdx) s)).2 = [t])
    (h3 : route_after_call_tool (callToolStep cfg o nInv (llmDecide (o.decide dIdx) s)).1 =
      .RESPOND) :
    (turnLoop cfg o (fuel + 1) dIdx nInv s).2 = [t] := by
  unfold turnLoop
  dsimp only
  rw [h1]
  dsimp only
  rw [h3]
  dsimp only
  exact h2

/-- C2 counterexample: a decision proposal carrying a constraints update
changes the fingerprint mid-turn, so a turn that starts with complete
constraints and no valid cache makes five tool-client invocations —
`search_candidates` and `get_offers` each run twice — instead of the
claimed exact sequence `[search_candidates, get_offers, rank_offers]`. -/
theorem canonical_tool_order_counterexample :
    (runTurn {} c2Oracle 8 { constraints := sampleConstraints }).2 =
      [ToolName.search_candidates, ToolName.get_offers, ToolName.search_candidates,
       ToolName.get_offers, ToolName.rank_offers] ∧
    (runTurn {} c2Oracle 8 { constraints := sampleConstraints }).2 ≠
      [ToolName.search_candidates, ToolName.get_offers, ToolName.rank_offers] := by
  constructor
  · decide
  · decide

/-- C2 (amended): in a turn whose post-resolution state has complete
constraints, an empty tool cache with no stored fingerprint and a fresh
call counter, and in which no decision proposal carries a constraints
update, the tool-client invocation sequence is exactly
`[search_candidates, get_offers, rank_offers]` — each tool once, in
pipeline order — provided the budget admits three calls and search and
pricing return non-empty results. -/
theorem canonical_tool_order (cfg : AgentSettings) (o : Oracle)
    (fuel dIdx nInv : Nat) (s s0 : GState)
    (hres : resolvePhase (o.decide dIdx) s = (s0, none))
    (hend : s0.end_turn = false)
    (hcnt : s0.tool_calls_this_turn = 0)
    (hcomp : s0.constraints.is_complete = true)
    (hcand : s0.candidates = [])
    (hoff : s0.offers = [])
    (hrank : s0.ranked_offers = [])
    (hrec : s0.recommended_offers = [])
    (hkey0 : s0.tool_constraints_key = none)
    (hdec : ∀ i, ∃ a, (o.decide i).decideAction = some a ∧ actionUpdate a = none)
    (hmax : 3 ≤ cfg.max_tool_calls_per_turn)
    (hhot : 1 ≤ cfg.max_hotels_priced_per_turn)
    (hsr : o.searchResult nInv ≠ [])
    (hor : o.offersResult (nInv + 1) ≠ []) :
    (turnLoop cfg o (fuel + 3) dIdx nInv s).2 =
      [ToolName.search_candidates, ToolName.get_offers, ToolName.rank_offers] := by
  obtain ⟨a0, hd0, hu0⟩ := hdec dIdx
  obtain ⟨a1, hd1, hu1⟩ := hdec (dIdx + 1)
  obtain ⟨a2, hd2, hu2⟩ := hdec (dIdx + 1 + 1)
  have hdates := is_complete_dates s0.constraints hcomp
  have hsrE : (o.searchResult nInv).isEmpty = false := by simpa using hsr
  have horE : (o.offersResult (nInv + 1)).isEmpty = false := by simpa using hor
  have hinv : invalidatePhase s0 = s0 := by
    unfold invalidatePhase
    dsimp only
    rw [show hasToolCache s0 = false from by
      simp [hasToolCache, hcand, hoff, hrank, hrec]]
    simp [hkey0]
  have hexp0 : expectedTool s0 = some ToolName.search_candidates := by
    simp [expectedTool, hcand]
  have hllm0 : llmDecide (o.decide dIdx) s = c2S1 s0 := by
    unfold llmDecide
    rw [hres]
    dsimp only
    rw [hend]
    simp only [Bool.false_eq_true, if_false]
    unfold decidePhase
    rw [hinv]
    unfold chooseAction
    dsimp only
    exact (decideActionStep_forces (o.decide dIdx) s0 a0 hd0 hu0 hcomp
      ToolName.search_candidates hexp0).trans rfl
  have hlt0 : (c2S1 s0).tool_calls_this_turn < cfg.max_tool_calls_per_turn := by
    simp only [c2S1]
    omega
  have hstep0 := callToolStep_search cfg o nInv (c2S1 s0) rfl hlt0 hcomp hsr
  have hS2 : (callToolStep cfg o nInv (c2S1 s0)).1 = c2S2 o nInv s0 := by
    rw [hstep0.1]
    rfl
  have hroute0 : route_after_llm_decide (llmDecide (o.decide dIdx) s) = .CALL_TOOL := by
    rw [hllm0]
    unfold route_after_llm_decide c2S1
    dsimp only
    rw [hend]
    rfl
  have htr0 : (callToolStep cfg o nInv (llmDecide (o.decide dIdx) s)).2 =
      [ToolName.search_candidates] := by
    rw [hllm0, hstep0.1]
  have hrt0 : route_after_call_tool
      (callToolStep cfg o nInv (llmDecide (o.decide dIdx) s)).1 = .DECIDE := by
    rw [hllm0]
    exact hstep0.2
  have hcnt1 : (c2S2 o nInv s0).tool_calls_this_turn ≠ 0 := by
    simp [c2S2, c2S1]
  have hexp1 : expectedTool (c2S2 o nInv s0) = some ToolName.get_offers := by
    simp [expectedTool, c2S2, c2S1, hsrE]
  have hllm1 : llmDecide (o.decide (dIdx + 1)) (c2S2 o nInv s0) = c2S3 o nInv s0 :=
    (llmDecide_skip_forces (o.decide (dIdx + 1)) (c2S2 o nInv s0) a1 hcnt1 hd1 hu1
      rfl hcomp ToolName.get_offers hexp1).trans rfl
  have hlt1 : (c2S3 o nInv s0).tool_calls_this_turn < cfg.max_tool_calls_per_turn := by
    simp only [c2S3, c2S2, c2S1]
    omega
  have hstep1 := callToolStep_offers cfg o (nInv + 1) (c2S3 o nInv s0) rfl hlt1
    hsrE hhot hdates.1 hdates.2
  have hS4 : (callToolStep cfg o (nInv + 1) (c2S3 o nInv s0)).1 = c2S4 o nInv s0 := by
    rw [hstep1.1]
    rfl
  have hroute1 : route_after_llm_decide
      (llmDecide (o.decide (dIdx + 1)) (c2S2 o nInv s0)) = .CALL_TOOL := by
    rw [hllm1]
    rfl
  have htr1 : (callToolStep cfg o (nInv + 1)
      (llmDecide (o.decide (dIdx + 1)) (c2S2 o nInv s0))).2 = [ToolName.get_offers] := by
    rw [hllm1, hstep1.1]
  have hrt1 : route_after_call_tool (callToolStep cfg o (nInv + 1)
      (llmDecide (o.decide (dIdx + 1)) (c2S2 o nInv s0))).1 = .DECIDE := by
    rw [hllm1]
    exact hstep1.2
  have hcnt2 : (c2S4 o nInv s0).tool_calls_this_turn ≠ 0 := by
    simp [c2S4, c2S3, c2S2, c2S1]
  have hexp2 : expectedTool (c2S4 o nInv s0) = some ToolName.rank_offers := by
    simp [expectedTool, c2S4, c2S3, c2S2, c2S1, hsrE, horE]
  have hllm2 : llmDecide (o.decide (dIdx + 1 + 1)) (c2S4 o nInv s0) = c2S5 o nInv s0 :=
    (llmDecide_skip_forces (o.decide (dIdx + 1 + 1)) (c2S4 o nInv s0) a2 hcnt2 hd2 hu2
      rfl hcomp ToolName.rank_offers hexp2).trans rfl
  have hlt2 : (c2S5 o nInv s0).tool_calls_this_turn < cfg.max_tool_calls_per_turn := by
    simp only [c2S5, c2S4, c2S3, c2S2, c2S1]
    omega
  have hstep2 := callToolStep_rank cfg o (nInv + 1 + 1) (c2S5 o nInv s0) rfl hlt2 horE
  have hroute2 : route_after_llm_decide
      (llmDecide (o.decide (dIdx + 1 + 1)) (c2S4 o nInv s0)) = .CALL_TOOL := by
    rw [hllm2]
    rfl
  have htr2 : (callToolStep cfg o (nInv + 1 + 1)
      (llmDecide (o.decide (dIdx + 1 + 1)) (c2S4 o nInv s0))).2 = [ToolName.rank_offers] := by
    rw [hllm2, hstep2.1]
  have hrt2 : route_after_call_tool (callToolStep cfg o (nInv + 1 + 1)
      (llmDecide (o.decide (dIdx + 1 + 1)) (c2S4 o nInv s0))).1 = .RESPOND := by
    rw [hllm2]
    exact hstep2.2
  have efuel : fuel + 3 = fuel + 2 + 1 := rfl
  rw [efuel]
  rw [turnLoop_call_one cfg o (fuel + 2) dIdx nInv s ToolName.search_candidates
    hroute0 htr0 hrt0]
  rw [hllm0, hS2]
  rw [turnLoop_call_one cfg o (fuel + 1) (dIdx + 1) (nInv + 1) (c2S2 o nInv s0)
    ToolName.get_offers hroute1 htr1 hrt1]
  rw [hllm1, hS4]
  rw [turnLoop_call_end cfg o fuel (dIdx + 1 + 1) (nInv + 1 + 1) (c2S4 o nInv s0)
    ToolName.rank_offers hroute2 htr2 hrt2]

/-- C2 witness: a fresh state with the complete sample constraints and an
oracle with update-free decisions runs the canonical three-call pipeline. -/
theorem canonical_tool_order_witness :
    resolvePhase (happyOracle.decide 0) { constraints := sampleConstraints } =
      ({ constraints := sampleConstraints, agent_state := "LLM_DECIDE" }, none) ∧
    (turnLoop {} happyOracle (5 + 3) 0 0 { constraints := sampleConstraints }).2 =
      [ToolName.search_candidates, ToolName.get_offers, ToolName.rank_offers] :=
  ⟨by decide,
   canonical_tool_order {} happyOracle 5 0 0
     { constraints := sampleConstraints }
     { constraints := sampleConstraints, agent_state := "LLM_DECIDE" }
     (by decide) rfl rfl (by decide) rfl rfl rfl rfl rfl
     (fun i => ⟨AgentAction.respond { kind := .generic, message := some "ok" }, rfl, rfl⟩)
     (by decide) (by decide) (by decide) (by decide)⟩

end HotelAgent
